import Mathlib

/-!
Verification development for the Cursor session-tracking plugin
(tokentopapp/agent-cursor).

The TypeScript sources are shallowly embedded: pure functions become Lean
functions, the mutable module-level caches become explicit state threaded
through the functions, and JavaScript runtime failures (property access on
`undefined`) are modelled with `Except Unit`.  JavaScript numbers that hold
token counts and millisecond timestamps are modelled as `Int`; fractional
weights and costs as `ℚ`.  `Date.parse` of an ISO string is abstracted as an
already-parsed `Option Int` (none = absent or unparseable string, in which
case the source falls back to a default).
-/

/- ### Association-list model of JavaScript `Map` (insertion-ordered). -/

/-- `Map.get`: first entry with the given key, if any. -/
def assocFind {β : Type} (l : List (String × β)) (k : String) : Option β :=
  match l.find? (fun p => p.1 == k) with
  | some p => some p.2
  | none => none

/-- `Map.set`: replace the value in place when the key exists, else append. -/
def assocSet {β : Type} (l : List (String × β)) (k : String) (v : β) :
    List (String × β) :=
  match l with
  | [] => [(k, v)]
  | p :: rest => if p.1 == k then (k, v) :: rest else p :: assocSet rest k v

/-- Keys of an association list, in order. -/
def assocKeys {β : Type} (l : List (String × β)) : List String := l.map (·.1)

/- ### Basic data model (src/types.ts) -/

/-- Per-bubble token count object (`CursorTokenCount`). -/
structure TokenCount where
  inputTokens : Int
  outputTokens : Int
deriving DecidableEq, Repr

/-- One message record (`CursorBubbleData`).  `tokenCount` is `none` when the
stored JSON has no usable `tokenCount` object (the runtime value is untyped;
`isAssistantBubble` explicitly guards for this case). -/
structure BubbleData where
  type : Int
  bubbleId : String
  tokenCount : Option TokenCount
  text : Option String
  modelInfoName : Option String
  createdAt : Option Int
deriving DecidableEq, Repr

/-- Conversation record (`CursorComposerData`), restricted to the fields the
pipeline reads. `modelConfigName` models `composer.modelConfig?.modelName`. -/
structure ComposerData where
  name : Option String
  lastUpdatedAt : Int
  createdAt : Int
  modelConfigName : Option String
deriving DecidableEq, Repr

/-- The `cursorDiskKV` table of the state database, restricted to the two key
prefixes the core reads.  `composers` models the `composerData:` prefix scan
(`readAllComposerIds` returns the keys in order, `readComposerData` the decoded
value or `none` on a missing row / decode failure); `bubbles` models the
`bubbleId:{composerId}:` prefix scan the same way. -/
structure Db where
  composers : List (String × Option ComposerData)
  bubbles : List ((String × String) × Option BubbleData)

/-- `readAllComposerIds`: keys under the `composerData:` prefix. -/
def readAllComposerIds (db : Db) : List String := db.composers.map (·.1)

/-- `readComposerData`: decoded record or `none` (missing / decode failure). -/
def readComposerData (db : Db) (composerId : String) : Option ComposerData :=
  match db.composers.find? (fun p => p.1 == composerId) with
  | some p => p.2
  | none => none

/-- `readAllBubbleKeys`: bubble ids stored under one conversation. -/
def readAllBubbleKeys (db : Db) (composerId : String) : List String :=
  (db.bubbles.filter (fun p => p.1.1 == composerId)).map (·.1.2)

/-- `readBubbleData`: decoded bubble or `none` (missing / decode failure). -/
def readBubbleData (db : Db) (composerId bubbleId : String) : Option BubbleData :=
  match db.bubbles.find? (fun p => p.1 == (composerId, bubbleId)) with
  | some p => p.2
  | none => none

/- ### Conversation parser & estimator (src/parser.ts) -/

/-- `ASSISTANT_BUBBLE_TYPE` (parser.ts line 27). -/
def ASSISTANT_BUBBLE_TYPE : Int := 2

/-- `ESTIMATED_CHARS_PER_TOKEN` (parser.ts line 34). -/
def ESTIMATED_CHARS_PER_TOKEN : Nat := 4

/-- `toTimestamp` (parser.ts lines 43-47); `Date.parse` abstracted as the
already-parsed optional value. -/
def toTimestamp (parsed : Option Int) (fallback : Int) : Int :=
  parsed.getD fallback

/-- `isAssistantBubble` (parser.ts lines 57-73): assistant type, non-empty
bubble id, and either a well-formed token-count object or non-empty text. -/
def isAssistantBubble (b : BubbleData) : Bool :=
  b.type == ASSISTANT_BUBBLE_TYPE &&
  b.bubbleId.length > 0 &&
  (b.tokenCount.isSome ||
    (match b.text with
     | some t => t.length > 0
     | none => false))

/-- `estimateOutputTokens` (parser.ts lines 85-88): `ceil(text.length / 4)`,
`0` for missing/empty text. -/
def estimateOutputTokens (text : Option String) : Int :=
  match text with
  | none => 0
  | some t =>
    if t.length == 0 then 0
    else (((t.length + ESTIMATED_CHARS_PER_TOKEN - 1) / ESTIMATED_CHARS_PER_TOKEN : Nat) : Int)

/-- `resolveModelName` (parser.ts lines 90-102): per-bubble model unless it is
absent/empty or a placeholder, then the composer default, then a fixed
fallback. -/
def resolveModelName (b : BubbleData) (c : ComposerData) : String :=
  match b.modelInfoName with
  | some m =>
    if m.length > 0 && m != "default" && m != "?" then m
    else
      match c.modelConfigName with
      | some cm => if cm.length > 0 && cm != "default" then cm else "cursor-default"
      | none => "cursor-default"
  | none =>
    match c.modelConfigName with
    | some cm => if cm.length > 0 && cm != "default" then cm else "cursor-default"
    | none => "cursor-default"

/-- `resolveProviderId` (utils): case-insensitive prefix matching with a fixed
fallback provider. -/
def resolveProviderId (modelName : String) : String :=
  let lower := modelName.toLower
  if lower.startsWith "claude" then "anthropic"
  else if lower.startsWith "gpt" || lower.startsWith "o1" || lower.startsWith "o3" ||
      lower.startsWith "o4" || lower.startsWith "chatgpt" ||
      (lower.splitOn "codex").length != 1 then "openai"
  else if lower.startsWith "gemini" then "google"
  else if lower.startsWith "deepseek" then "deepseek"
  else "cursor"

/-- Token field of a usage row (`tokens` object built at parser.ts lines
132-135 / csv enrichment lines 449-454). -/
structure Tokens where
  input : Int
  output : Int
  cacheRead : Option Int := none
  cacheWrite : Option Int := none
deriving DecidableEq, Repr

/-- `SessionUsageData`, restricted to fields the core writes/reads.
`isEstimated` models `metadata.isEstimated`. -/
structure UsageRow where
  sessionId : String
  providerId : String
  modelId : String
  tokens : Tokens
  timestamp : Int
  isEstimated : Bool
  sessionUpdatedAt : Option Int
  sessionName : Option String := none
  projectPath : Option String := none
  cost : Option ℚ := none
deriving DecidableEq, Repr

/-- `ComposerWithMeta` (parser.ts lines 36-41). -/
structure ComposerWithMeta where
  composerId : String
  lastUpdatedAt : Int
  projectPath : Option String
  sessionName : Option String
deriving DecidableEq, Repr

/-- The per-bubble body of the `parseComposerBubbles` loop (parser.ts lines
113-148).  Returns `.ok none` when the bubble is skipped, `.ok (some row)`
when a usage row is produced, and `.error ()` for the JavaScript `TypeError`
raised at line 121 when a bubble accepted via non-empty text has no
`tokenCount` object to read `inputTokens` from. -/
def processBubble (meta : ComposerWithMeta) (composer : ComposerData)
    (shouldEstimate : Bool) (b : BubbleData) : Except Unit (Option UsageRow) :=
  if !isAssistantBubble b then .ok none
  else
    match b.tokenCount with
    | none => .error ()
    | some tc =>
      let modelId := resolveModelName b composer
      let providerId := resolveProviderId modelId
      let timestamp := toTimestamp b.createdAt meta.lastUpdatedAt
      let hasRealTokens := tc.inputTokens > 0 || tc.outputTokens > 0
      let outputTokens :=
        if hasRealTokens then tc.outputTokens
        else if shouldEstimate then estimateOutputTokens b.text else 0
      let inputTokens := if hasRealTokens then tc.inputTokens else 0
      if inputTokens == 0 && outputTokens == 0 then .ok none
      else .ok (some {
        sessionId := meta.composerId
        providerId := providerId
        modelId := modelId
        tokens := { input := inputTokens, output := outputTokens }
        timestamp := timestamp
        isEstimated := true
        sessionUpdatedAt := some meta.lastUpdatedAt
        sessionName := meta.sessionName
        projectPath := meta.projectPath })

/-- `parseComposerBubbles` (parser.ts lines 104-151): iterate the bubble keys,
skip non-assistant records, deduplicate by `bubble.bubbleId` into an
insertion-ordered map, and return its values. -/
def parseComposerBubbles (db : Db) (meta : ComposerWithMeta)
    (composer : ComposerData) (shouldEstimate : Bool) :
    Except Unit (List UsageRow) := do
  let mut deduped : List (String × UsageRow) := []
  for bubbleId in readAllBubbleKeys db meta.composerId do
    match readBubbleData db meta.composerId bubbleId with
    | none => pure ()
    | some b =>
      match ← pure (processBubble meta composer shouldEstimate b) with
      | .error e => throw e
      | .ok none => pure ()
      | .ok (some usage) => deduped := assocSet deduped b.bubbleId usage
  return deduped.map (·.2)

/-- A conversation holding one assistant bubble that carries non-empty text
but no `tokenCount` object — the shape `isAssistantBubble` deliberately
accepts "for estimation" per its own doc comment. -/
def missingTokenCountDb : Db :=
  { composers := [("c1", some { name := none, lastUpdatedAt := 5, createdAt := 1,
                                modelConfigName := none })]
    bubbles := [(("c1", "b1"),
      some { type := 2, bubbleId := "b1", tokenCount := none,
             text := some "hello!", modelInfoName := none, createdAt := none })] }

/-- Metadata for the conversation of `missingTokenCountDb`. -/
def missingTokenCountMeta : ComposerWithMeta :=
  { composerId := "c1", lastUpdatedAt := 5, projectPath := none, sessionName := none }

/-- Composer record of `missingTokenCountDb`. -/
def missingTokenCountComposer : ComposerData :=
  { name := none, lastUpdatedAt := 5, createdAt := 1, modelConfigName := none }

/-- C1: the claim says a turn whose token counts are absent (with estimation
enabled) yields a row with `output = ceil(textLength / 4)` and `input = 0`.
The code instead raises a `TypeError` at parser.ts line 121
(`bubble.tokenCount.inputTokens`) for an assistant bubble that carries text
but no `tokenCount` object, even though `isAssistantBubble` accepted that
bubble "for estimation": parsing the conversation aborts with an error and no
estimated row is produced. -/
theorem parseComposerBubbles_throws_on_missing_tokenCount :
    parseComposerBubbles missingTokenCountDb missingTokenCountMeta
      missingTokenCountComposer true = .error () := by
  rfl

/- ### Activity watcher (src/watcher.ts lines 1-184) -/

/-- Combined mutable state of `sessionWatcher` and `activityWatcher`
(watcher.ts lines 7-35).  File-system watcher handles and timers are modelled
as booleans (open/closed), the registered callback as an identifying token. -/
structure WatcherState where
  activityWatcherOpen : Bool
  callback : Option Nat
  knownBubbleKeys : List String
  activityStarted : Bool
  sessionWatcherOpen : Bool
  sessionDirty : Bool
  reconciliationTimer : Bool
  sessionStarted : Bool
deriving DecidableEq, Repr

/-- The compound key `composerId + colon + bubbleId` (watcher.ts line 92). -/
def compoundKey (composerId bubbleId : String) : String :=
  composerId ++ ":" ++ bubbleId

/-- The watcher-local `isTokenBearingBubble` (watcher.ts lines 41-52):
assistant type, a token-count object with `inputTokens > 0`, and a non-empty
bubble id. -/
def watcherIsTokenBearingBubble (b : BubbleData) : Bool :=
  b.type == ASSISTANT_BUBBLE_TYPE &&
  (match b.tokenCount with
   | some tc => tc.inputTokens > 0
   | none => false) &&
  b.bubbleId.length > 0

/-- The delta passed to the activity callback (watcher.ts lines 105-110). -/
structure ActivityUpdate where
  sessionId : String
  messageId : String
  input : Int
  output : Int
  timestamp : Int
deriving DecidableEq, Repr

/-- The (composerId, bubbleId) pairs in the order the watcher's nested loops
visit them (watcher.ts lines 67-71 and 88-91). -/
def dbBubblePairs (db : Db) : List (String × String) :=
  (readAllComposerIds db).flatMap
    (fun cid => (readAllBubbleKeys db cid).map (fun bid => (cid, bid)))

/-- Set-insertion of every compound key, as `primeKnownBubbles` performs it. -/
def primeFold (ks : List String) (pairs : List (String × String)) : List String :=
  pairs.foldl
    (fun ks p =>
      let k := compoundKey p.1 p.2
      if ks.contains k then ks else k :: ks) ks

/-- `primeKnownBubbles` (watcher.ts lines 60-76): add every existing compound
key to the seen set.  The store is modelled as openable; a failed open leaves
the state unchanged and is not modelled. -/
def primeKnownBubbles (db : Db) (st : WatcherState) : WatcherState :=
  { st with knownBubbleKeys := primeFold st.knownBubbleKeys (dbBubblePairs db) }

/-- One iteration of the bubble loop of `processDbChange` (watcher.ts lines
91-111), acting on the accumulated (emitted deltas, seen set): a seen key is
skipped; an unseen key is added to the seen set first, and only then is the
bubble checked for usable content. -/
def pdcStep (db : Db) (now : Int)
    (acc : List ActivityUpdate × List String) (p : String × String) :
    List ActivityUpdate × List String :=
  let key := compoundKey p.1 p.2
  if acc.2.contains key then acc
  else
    let known := key :: acc.2
    match readBubbleData db p.1 p.2 with
    | none => (acc.1, known)
    | some b =>
      if watcherIsTokenBearingBubble b then
        match b.tokenCount with
        | some tc =>
          (acc.1 ++ [{ sessionId := p.1, messageId := b.bubbleId,
                       input := tc.inputTokens, output := tc.outputTokens,
                       timestamp := toTimestamp b.createdAt now }], known)
        | none => (acc.1, known)
      else (acc.1, known)

/-- `processDbChange` (watcher.ts lines 78-116): without a registered callback
nothing happens; otherwise the bubble loop runs over every stored record.
A record whose key was just added but that is not yet token-bearing is skipped
while its key stays in the seen set.  Returns the emitted deltas and the
updated state. -/
def processDbChange (db : Db) (now : Int) (st : WatcherState) :
    List ActivityUpdate × WatcherState :=
  match st.callback with
  | none => ([], st)
  | some _ =>
    let step := (dbBubblePairs db).foldl (pdcStep db now) ([], st.knownBubbleKeys)
    (step.1, { st with knownBubbleKeys := step.2 })

/-- `startActivityWatch` (watcher.ts lines 157-171): always replace the
callback; when not yet started, mark started, prime the seen set, and open the
file-system subscription. -/
def startActivityWatch (cb : Nat) (db : Db) (st : WatcherState) : WatcherState :=
  let st1 := { st with callback := some cb }
  if st1.activityStarted then st1
  else
    let st2 := primeKnownBubbles db { st1 with activityStarted := true }
    { st2 with activityWatcherOpen := true }

/-- `stopSessionWatcher` (watcher.ts lines 134-147). -/
def stopSessionWatcher (st : WatcherState) : WatcherState :=
  { st with reconciliationTimer := false, sessionWatcherOpen := false,
            sessionDirty := false, sessionStarted := false }

/-- `stopActivityWatch` (watcher.ts lines 173-184): close the subscription,
clear the seen set, detach the callback, reset the started flag, and also stop
the session watcher. -/
def stopActivityWatch (st : WatcherState) : WatcherState :=
  stopSessionWatcher
    { st with activityWatcherOpen := false, knownBubbleKeys := [],
              callback := none, activityStarted := false }

/- Helper lemmas about the seen-set folds. -/

lemma mem_primeFold_of_mem (pairs : List (String × String)) :
    ∀ {ks : List String} {x : String}, x ∈ ks → x ∈ primeFold ks pairs := by
  induction pairs with
  | nil => intro ks x h; simpa [primeFold] using h
  | cons p rest ih =>
    intro ks x h
    have hstep : primeFold ks (p :: rest) =
        primeFold (if ks.contains (compoundKey p.1 p.2) then ks
                   else compoundKey p.1 p.2 :: ks) rest := rfl
    rw [hstep]
    apply ih
    split
    · exact h
    · exact List.mem_cons_of_mem _ h

lemma compoundKey_mem_primeFold (pairs : List (String × String)) :
    ∀ {ks : List String} {p : String × String}, p ∈ pairs →
      compoundKey p.1 p.2 ∈ primeFold ks pairs := by
  induction pairs with
  | nil => intro ks p h; cases h
  | cons q rest ih =>
    intro ks p h
    have hstep : primeFold ks (q :: rest) =
        primeFold (if ks.contains (compoundKey q.1 q.2) then ks
                   else compoundKey q.1 q.2 :: ks) rest := rfl
    rw [hstep]
    rcases List.mem_cons.mp h with hq | hrest
    · subst hq
      apply mem_primeFold_of_mem
      split
      · next hc => simpa using hc
      · exact List.mem_cons_self _ _
    · exact ih hrest

lemma pdcFold_all_known (db : Db) (now : Int) :
    ∀ (pairs : List (String × String)) (acc : List ActivityUpdate × List String),
      (∀ p ∈ pairs, compoundKey p.1 p.2 ∈ acc.2) →
      pairs.foldl (pdcStep db now) acc = acc := by
  intro pairs
  induction pairs with
  | nil => intro acc _; rfl
  | cons p rest ih =>
    intro acc hacc
    have hp : compoundKey p.1 p.2 ∈ acc.2 := hacc p (List.mem_cons_self p rest)
    have hc : acc.2.contains (compoundKey p.1 p.2) = true := by simpa using hp
    have hstep : pdcStep db now acc p = acc := by simp [pdcStep, hc, hp]
    rw [List.foldl_cons, hstep]
    exact ih acc (fun q hq => hacc q (List.mem_cons_of_mem p hq))

lemma processDbChange_emits_nothing_of_all_known
    (db : Db) (now : Int) (st : WatcherState)
    (h : ∀ p ∈ dbBubblePairs db, compoundKey p.1 p.2 ∈ st.knownBubbleKeys) :
    (processDbChange db now st).1 = [] := by
  rcases hcb : st.callback with _ | cb
  · simp [processDbChange, hcb]
  · have hfold := pdcFold_all_known db now (dbBubblePairs db)
      ([], st.knownBubbleKeys) (by simpa using h)
    simp [processDbChange, hcb, hfold]

/- ### C3 / C9 concrete states -/

/-- Composer record backing the streaming-turn scenario. -/
def streamingComposer : ComposerData :=
  { name := none, lastUpdatedAt := 10, createdAt := 1, modelConfigName := none }

/-- Store snapshot at the first trigger: the new assistant turn is still
streaming — empty text, token counts still at zero. -/
def streamingDb1 : Db :=
  { composers := [("c1", some streamingComposer)]
    bubbles := [(("c1", "b1"),
      some { type := 2, bubbleId := "b1",
             tokenCount := some { inputTokens := 0, outputTokens := 0 },
             text := some "", modelInfoName := none, createdAt := some 100 })] }

/-- Store snapshot at a later trigger: the same turn now carries its final
content and token counts. -/
def streamingDb2 : Db :=
  { composers := [("c1", some streamingComposer)]
    bubbles := [(("c1", "b1"),
      some { type := 2, bubbleId := "b1",
             tokenCount := some { inputTokens := 10, outputTokens := 20 },
             text := some "final answer", modelInfoName := none, createdAt := some 100 })] }

/-- A running watcher with a registered callback and an empty seen set. -/
def watchingState : WatcherState :=
  { activityWatcherOpen := true, callback := some 1, knownBubbleKeys := [],
    activityStarted := true, sessionWatcherOpen := true, sessionDirty := false,
    reconciliationTimer := true, sessionStarted := true }

/-- C3: the claim (and the repository README, which describes a pending-bubble
re-check) says a new turn observed while still streaming is recorded as
pending and emitted exactly once on a later trigger, once its content appears.
The code has no pending set: `processDbChange` adds the compound key to the
seen set before checking the bubble, so the streaming turn is skipped on the
first trigger and then skipped forever — the first trigger emits nothing and
a later trigger after the content appears also emits nothing.  The turn is
lost rather than emitted once. -/
theorem processDbChange_loses_streaming_turn :
    (processDbChange streamingDb1 1000 watchingState).1 = [] ∧
    (processDbChange streamingDb2 2000
      (processDbChange streamingDb1 1000 watchingState).2).1 = [] :=
  ⟨rfl, rfl⟩

/-- A fully running watcher whose seen set already holds one compound key. -/
def c9State : WatcherState :=
  { activityWatcherOpen := true, callback := some 7,
    knownBubbleKeys := [compoundKey "c1" "b1"], activityStarted := true,
    sessionWatcherOpen := true, sessionDirty := false,
    reconciliationTimer := true, sessionStarted := true }

/-- C9 counterexample: stopping the watcher is not a callback-only detach.
At this concrete state `stopActivityWatch` differs from merely clearing the
callback: it also empties the seen-keys set and closes both the activity and
session subscriptions, refuting the claim that subscriptions and the
seen-rows state stay intact. -/
theorem stopActivityWatch_not_callback_only :
    stopActivityWatch c9State ≠ { c9State with callback := none } ∧
    (stopActivityWatch c9State).knownBubbleKeys = [] ∧
    (stopActivityWatch c9State).activityWatcherOpen = false ∧
    (stopActivityWatch c9State).sessionWatcherOpen = false := by
  refine ⟨?_, rfl, rfl, rfl⟩
  decide

/-- C9 (amended): starting the activity watcher while it is already started
changes nothing but the registered callback (timers, subscriptions, seen set
and flags are untouched).  Stopping it, however, is a full teardown — it
closes the subscription, clears the seen-keys set, detaches the callback and
stops the session watcher — and a subsequent start re-primes the seen set
from the store's current contents, so rows present in the store at restart
are still not re-emitted. -/
theorem activityWatch_lifecycle :
    (∀ (st : WatcherState) (cb : Nat) (db : Db),
      st.activityStarted = true →
      startActivityWatch cb db st = { st with callback := some cb }) ∧
    (∀ (st : WatcherState) (db : Db) (cb : Nat) (now : Int),
      (processDbChange db now
        (startActivityWatch cb db (stopActivityWatch st))).1 = []) := by
  constructor
  · intro st cb db h
    simp [startActivityWatch, h]
  · intro st db cb now
    apply processDbChange_emits_nothing_of_all_known
    intro p hp
    have hknown : (startActivityWatch cb db (stopActivityWatch st)).knownBubbleKeys
        = primeFold [] (dbBubblePairs db) := rfl
    rw [hknown]
    exact compoundKey_mem_primeFold _ hp

/-- Witness for C9: the lifecycle theorem applied at a concrete running state
and concrete store. -/
theorem activityWatch_lifecycle_witness :
    startActivityWatch 9 streamingDb1 c9State = { c9State with callback := some 9 } ∧
    (processDbChange streamingDb1 5
      (startActivityWatch 9 streamingDb1 (stopActivityWatch c9State))).1 = [] :=
  ⟨activityWatch_lifecycle.1 c9State 9 streamingDb1 rfl,
   activityWatch_lifecycle.2 c9State streamingDb1 9 5⟩

/- ### Remote-feed enrichment (csv half of src/watcher.ts, lines 185-520) -/

/-- `MATCH_WINDOW_MS` (enrichment code line 196). -/
def MATCH_WINDOW_MS : Nat := 60000

/-- One parsed remote record (`CursorCsvUsageRow`). -/
structure CsvRow where
  timestamp : Int
  kind : String
  model : String
  maxMode : Bool
  inputTokensWithCacheWrite : Int
  inputTokensWithoutCacheWrite : Int
  cacheReadTokens : Int
  outputTokens : Int
  totalTokens : Int
  cost : ℚ
deriving DecidableEq, Repr

/-- JavaScript `Math.round`: round half toward positive infinity. -/
def jsRound (q : ℚ) : Int := ⌊q + 1 / 2⌋

/-- `Number(x.toFixed(6))`: a cost rounded to six decimal places (binary
floating-point representation effects are not modelled). -/
def jsToFixed6 (q : ℚ) : ℚ := (jsRound (q * 1000000) : ℚ) / 1000000

/-- One step of grouping local rows by `sessionId` (enrichment lines
393-401): append to the existing group or open a new one. -/
def groupStep (acc : List (String × List UsageRow)) (row : UsageRow) :
    List (String × List UsageRow) :=
  match assocFind acc row.sessionId with
  | some rs => assocSet acc row.sessionId (rs ++ [row])
  | none => acc ++ [(row.sessionId, [row])]

/-- Group local rows by `sessionId` in first-appearance order. -/
def groupBySession (rows : List UsageRow) : List (String × List UsageRow) :=
  rows.foldl groupStep []

/-- Stable insertion used to sort remote records by timestamp. -/
def insertCsvByTs (r : CsvRow) : List CsvRow → List CsvRow
  | [] => [r]
  | s :: rest =>
    if r.timestamp < s.timestamp then r :: s :: rest else s :: insertCsvByTs r rest

/-- Ascending stable sort of the remote records by timestamp (enrichment line
404). -/
def sortCsvByTs (rows : List CsvRow) : List CsvRow :=
  rows.foldl (fun acc r => insertCsvByTs r acc) []

/-- The conversation's most recent last-modified stamp among its rows
(enrichment lines 410-413): maximum of `sessionUpdatedAt ?? timestamp`,
starting from 0. -/
def maxUpdatedAt (rows : List UsageRow) : Int :=
  rows.foldl
    (fun mx r =>
      let ts := r.sessionUpdatedAt.getD r.timestamp
      if ts > mx then ts else mx) 0

/-- One step of the linear scan for the nearest unassigned remote record
(enrichment lines 418-426); the accumulator holds the best
(index, record, delta) so far. -/
def findBestStep (used : List Nat) (updatedAt : Int)
    (best : Option (Nat × CsvRow × Nat)) (ir : Nat × CsvRow) :
    Option (Nat × CsvRow × Nat) :=
  if used.contains ir.1 then best
  else if (ir.2.timestamp - updatedAt).natAbs > MATCH_WINDOW_MS then best
  else
    match best with
    | none => some (ir.1, ir.2, (ir.2.timestamp - updatedAt).natAbs)
    | some b =>
      if (ir.2.timestamp - updatedAt).natAbs < b.2.2 then
        some (ir.1, ir.2, (ir.2.timestamp - updatedAt).natAbs)
      else best

/-- The nearest unassigned remote record within the ±60 s window, scanning the
sorted records left to right (enrichment lines 415-426). -/
def findBestCsvIdx (sorted : List CsvRow) (used : List Nat) (updatedAt : Int) :
    Option (Nat × CsvRow) :=
  ((sorted.enum).foldl (findBestStep used updatedAt) none).map
    (fun b => (b.1, b.2.1))

/-- One step of the greedy conversation/record assignment (enrichment lines
408-432); the state is (used indices, assignments so far). -/
def matchStep (sorted : List CsvRow)
    (st : List Nat × List (String × Nat × CsvRow)) (g : String × List UsageRow) :
    List Nat × List (String × Nat × CsvRow) :=
  match findBestCsvIdx sorted st.1 (maxUpdatedAt g.2) with
  | some ir => (ir.1 :: st.1, st.2 ++ [(g.1, ir.1, ir.2)])
  | none => st

/-- The greedy assignment of remote records to conversations
(`sessionCsvMap`, enriched with the consumed index for each assignment). -/
def matchSessions (groups : List (String × List UsageRow))
    (sorted : List CsvRow) : List (String × Nat × CsvRow) :=
  (groups.foldl (matchStep sorted) ([], [])).2

/-- `sessionCsvMap.get`: the record assigned to a conversation, if any. -/
def matchFind (m : List (String × Nat × CsvRow)) (k : String) :
    Option (Nat × CsvRow) :=
  match m.find? (fun e => e.1 == k) with
  | some e => some e.2
  | none => none

/-- The row's weight in the proportional distribution (enrichment lines
440-443): its share of the conversation's total estimated output, or an equal
split when that total is not positive. -/
def rowWeight (grpRows : List UsageRow) (row : UsageRow) : ℚ :=
  if ((grpRows.map (fun r => r.tokens.output)).sum : Int) > 0 then
    (row.tokens.output : ℚ) / (((grpRows.map (fun r => r.tokens.output)).sum : Int) : ℚ)
  else 1 / (grpRows.length : ℚ)

/-- Distribution of a matched record's totals over one local row (enrichment
lines 435-458): weight is the row's share of the conversation's total
estimated output (equal split when that total is not positive), each token
field is `Math.round(total * weight)`, cache fields appear only when their
total is positive, cost only when positive, and the row is marked
authoritative. -/
def distributeRow (groups : List (String × List UsageRow))
    (assignments : List (String × Nat × CsvRow)) (row : UsageRow) : UsageRow :=
  match matchFind assignments row.sessionId with
  | none => row
  | some (_, csv) =>
    let grpRows := (assocFind groups row.sessionId).getD []
    let weight : ℚ := rowWeight grpRows row
    let cacheWrite := csv.inputTokensWithCacheWrite - csv.inputTokensWithoutCacheWrite
    { row with
      tokens :=
        { input := jsRound ((csv.inputTokensWithoutCacheWrite : ℚ) * weight)
          output := jsRound ((csv.outputTokens : ℚ) * weight)
          cacheRead :=
            if csv.cacheReadTokens > 0 then
              some (jsRound ((csv.cacheReadTokens : ℚ) * weight))
            else none
          cacheWrite :=
            if cacheWrite > 0 then some (jsRound ((cacheWrite : ℚ) * weight))
            else none }
      cost := if csv.cost > 0 then some (jsToFixed6 (csv.cost * weight)) else row.cost
      isEstimated := false }

/-- `applyCachedEnrichmentToRow` (enrichment lines 499-513): replay a cached
enriched row matched by sessionId and timestamp onto a local row. -/
def applyCachedEnrichmentToRow (cache : List (String × List UsageRow))
    (row : UsageRow) : Option UsageRow :=
  match assocFind cache row.sessionId with
  | none => none
  | some cachedRows =>
    match cachedRows.find? (fun c => c.timestamp == row.timestamp) with
    | none => none
    | some m =>
      some { row with
        tokens := m.tokens
        cost := match m.cost with | some c => some c | none => row.cost
        isEstimated := false }

/-- One step of caching a matched conversation's enriched rows (enrichment
lines 462-469): skip when the filter is empty, else `Map.set`. -/
def cacheWriteStep (enrichedRows : List UsageRow)
    (c : List (String × List UsageRow)) (m : String × Nat × CsvRow) :
    List (String × List UsageRow) :=
  if (enrichedRows.filter (fun r => r.sessionId == m.1)).isEmpty then c
  else assocSet c m.1 (enrichedRows.filter (fun r => r.sessionId == m.1))

/-- Cache every matched conversation's enriched rows (enrichment lines
460-473; the persistent mirror write is external and fire-and-forget). -/
def enrichCacheUpdate (enrichedRows : List UsageRow)
    (assignments : List (String × Nat × CsvRow))
    (cache : List (String × List UsageRow)) : List (String × List UsageRow) :=
  assignments.foldl (cacheWriteStep enrichedRows) cache

/-- Final shape of the enriched result (enrichment lines 475-483): when some
conversations were left unmatched and the (updated) enrichment cache is
non-empty, unmatched rows fall back to cached enrichment; matched rows pass
through unchanged. -/
def enrichResult (groups : List (String × List UsageRow))
    (assignments : List (String × Nat × CsvRow))
    (enrichedRows : List UsageRow) (cache1 : List (String × List UsageRow)) :
    List UsageRow :=
  if assignments.length < groups.length && !cache1.isEmpty then
    enrichedRows.map (fun r =>
      if (matchFind assignments r.sessionId).isSome then r
      else (applyCachedEnrichmentToRow cache1 r).getD r)
  else enrichedRows

/-- `enrichWithCsvData` (enrichment lines 380-484), with the module-level
per-session enrichment cache passed and returned explicitly (hydration from
persistent storage is the given cache; the fire-and-forget mirror write to
persistent storage is external).  Returns (enriched rows, updated cache). -/
def enrichWithCsvData (localRows : List UsageRow) (csvRows : List CsvRow)
    (cache : List (String × List UsageRow)) :
    List UsageRow × List (String × List UsageRow) :=
  if csvRows.isEmpty then
    if cache.isEmpty then (localRows, cache)
    else (localRows.map (fun r => (applyCachedEnrichmentToRow cache r).getD r), cache)
  else
    let groups := groupBySession localRows
    let assignments := matchSessions groups (sortCsvByTs csvRows)
    let enrichedRows := localRows.map (distributeRow groups assignments)
    let cache1 := enrichCacheUpdate enrichedRows assignments cache
    (enrichResult groups assignments enrichedRows cache1, cache1)

/- ### Association-list lemmas -/

lemma assocFind_nil {β : Type} (s : String) :
    assocFind ([] : List (String × β)) s = none := rfl

lemma assocFind_cons {β : Type} (p : String × β) (l : List (String × β))
    (s : String) :
    assocFind (p :: l) s = if p.1 == s then some p.2 else assocFind l s := by
  by_cases h : p.1 == s
  · simp [assocFind, List.find?, h]
  · simp [assocFind, List.find?, h]

lemma assocFind_append {β : Type} (l m : List (String × β)) (s : String) :
    assocFind (l ++ m) s =
      match assocFind l s with
      | some v => some v
      | none => assocFind m s := by
  induction l with
  | nil => simp [assocFind_nil]
  | cons p rest ih =>
    rw [List.cons_append, assocFind_cons, assocFind_cons]
    by_cases h : p.1 == s <;> simp [h, ih]

lemma assocFind_set_self {β : Type} (l : List (String × β)) (k : String) (v : β) :
    assocFind (assocSet l k v) k = some v := by
  induction l with
  | nil => simp [assocSet, assocFind_cons]
  | cons p rest ih =>
    by_cases h : p.1 == k
    · simp [assocSet, h, assocFind_cons]
    · simp [assocSet, h, assocFind_cons, ih]

lemma assocFind_set_ne {β : Type} (l : List (String × β)) (k : String) (v : β)
    (s : String) (h : s ≠ k) :
    assocFind (assocSet l k v) s = assocFind l s := by
  have hks : (k == s) = false := by simpa using Ne.symm h
  induction l with
  | nil => simp [assocSet, assocFind_cons, assocFind_nil, hks]
  | cons p rest ih =>
    by_cases hp : p.1 == k
    · have hpk : p.1 = k := by simpa using hp
      have hps : (p.1 == s) = false := by rw [hpk]; exact hks
      simp [assocSet, hp, assocFind_cons, hps, hks]
    · by_cases hs : p.1 == s <;>
        simp [assocSet, hp, assocFind_cons, hs, ih]

lemma assocKeys_cons {β : Type} (p : String × β) (l : List (String × β)) :
    assocKeys (p :: l) = p.1 :: assocKeys l := rfl

lemma assocFind_eq_none_iff {β : Type} (l : List (String × β)) (s : String) :
    assocFind l s = none ↔ s ∉ assocKeys l := by
  induction l with
  | nil => simp [assocFind_nil, assocKeys]
  | cons p rest ih =>
    rw [assocFind_cons, assocKeys_cons]
    by_cases h : p.1 == s
    · have hps : p.1 = s := by simpa using h
      simp [h, hps]
    · have hps : p.1 ≠ s := by simpa using h
      simp [h, List.mem_cons, ih, Ne.symm hps]

lemma mem_assocKeys_of_mem {β : Type} {l : List (String × β)} {k : String}
    {v : β} (h : (k, v) ∈ l) : k ∈ assocKeys l := by
  have := List.mem_map_of_mem Prod.fst h
  simpa [assocKeys] using this

lemma assocFind_of_mem_nodup {β : Type} {l : List (String × β)} {k : String}
    {v : β} (hmem : (k, v) ∈ l) (hnd : (assocKeys l).Nodup) :
    assocFind l k = some v := by
  induction l with
  | nil => cases hmem
  | cons p rest ih =>
    rw [assocFind_cons]
    rw [assocKeys_cons] at hnd
    have hnd2 := List.nodup_cons.mp hnd
    rcases List.mem_cons.mp hmem with hp | hrest
    · rw [← hp]; simp
    · by_cases h : p.1 == k
      · have hk : p.1 = k := by simpa using h
        exact absurd (hk ▸ mem_assocKeys_of_mem hrest) hnd2.1
      · simp [h, ih hrest hnd2.2]

lemma assocKeys_set_of_find_some {β : Type} {l : List (String × β)} {k : String}
    (v : β) (h : assocFind l k ≠ none) :
    assocKeys (assocSet l k v) = assocKeys l := by
  induction l with
  | nil => simp [assocFind_nil] at h
  | cons p rest ih =>
    rw [assocFind_cons] at h
    by_cases hp : p.1 == k
    · have hpk : p.1 = k := by simpa using hp
      simp [assocSet, hp, assocKeys, hpk]
    · simp only [hp, Bool.false_eq_true, if_false] at h
      simp [assocSet, hp, assocKeys] at ih ⊢
      exact ih h

lemma groupStep_find_self (acc : List (String × List UsageRow)) (row : UsageRow) :
    assocFind (groupStep acc row) row.sessionId =
      some ((assocFind acc row.sessionId).getD [] ++ [row]) := by
  unfold groupStep
  cases h : assocFind acc row.sessionId with
  | some rs => simp [assocFind_set_self, h]
  | none =>
    rw [assocFind_append]
    simp [h, assocFind_cons]

lemma groupStep_find_ne (acc : List (String × List UsageRow)) (row : UsageRow) (s : String)
    (h : row.sessionId ≠ s) :
    assocFind (groupStep acc row) s = assocFind acc s := by
  unfold groupStep
  cases hf : assocFind acc row.sessionId with
  | some rs => exact assocFind_set_ne _ _ _ _ (Ne.symm h)
  | none =>
    rw [assocFind_append]
    have hb : (row.sessionId == s) = false := by simpa using h
    cases hg : assocFind acc s <;> simp [hg, assocFind_cons, hb, assocFind_nil]

lemma groupFold_find (L : List UsageRow) :
    ∀ (acc : List (String × List UsageRow)) (s : String),
      assocFind (L.foldl groupStep acc) s =
        match assocFind acc s with
        | some rs => some (rs ++ L.filter (fun r => r.sessionId == s))
        | none =>
          if (L.filter (fun r => r.sessionId == s)).isEmpty then none
          else some (L.filter (fun r => r.sessionId == s)) := by
  induction L with
  | nil =>
    intro acc s
    cases h : assocFind acc s <;> simp [h]
  | cons row L2 ih =>
    intro acc s
    rw [List.foldl_cons, ih]
    by_cases hs : row.sessionId = s
    · subst hs
      rw [groupStep_find_self, List.filter_cons]
      simp only [beq_self_eq_true, if_true]
      cases h : assocFind acc row.sessionId with
      | some rs => simp [h, List.append_assoc]
      | none => simp [h]
    · have hb : (row.sessionId == s) = false := by simpa using hs
      rw [groupStep_find_ne _ _ _ hs, List.filter_cons]
      simp [hb]

lemma groupStep_keys (acc : List (String × List UsageRow)) (row : UsageRow) :
    assocKeys (groupStep acc row) =
      if row.sessionId ∈ assocKeys acc then assocKeys acc
      else assocKeys acc ++ [row.sessionId] := by
  unfold groupStep
  cases h : assocFind acc row.sessionId with
  | some rs =>
    have hmem : row.sessionId ∈ assocKeys acc := by
      by_contra hnot
      rw [(assocFind_eq_none_iff _ _).mpr hnot] at h
      cases h
    rw [assocKeys_set_of_find_some _ (by simp [h])]
    simp [hmem]
  | none =>
    have hnot := (assocFind_eq_none_iff _ _).mp h
    have hnot2 : row.sessionId ∉ List.map (fun x => x.1) acc := by
      simpa [assocKeys] using hnot
    simp [assocKeys, hnot2]

lemma groupFold_keys_nodup (L : List UsageRow) :
    ∀ acc, (assocKeys acc).Nodup → (assocKeys (L.foldl groupStep acc)).Nodup := by
  induction L with
  | nil => intro acc h; simpa using h
  | cons row L2 ih =>
    intro acc h
    rw [List.foldl_cons]
    apply ih
    rw [groupStep_keys]
    by_cases hm : row.sessionId ∈ assocKeys acc
    · simpa [hm] using h
    · simp only [hm, if_false]
      simp [List.nodup_append, h, hm]

def bestInv (used : List Nat) (updatedAt : Int)
    (best : Option (Nat × CsvRow × Nat)) : Prop :=
  ∀ e, best = some e →
    used.contains e.1 = false ∧
    (e.2.1.timestamp - updatedAt).natAbs ≤ MATCH_WINDOW_MS

lemma findBestStep_inv (used : List Nat) (ua : Int)
    (best : Option (Nat × CsvRow × Nat)) (ir : Nat × CsvRow) (h : bestInv used ua best) :
    bestInv used ua (findBestStep used ua best ir) := by
  intro e he
  unfold findBestStep at he
  by_cases hc : used.contains ir.1
  · rw [if_pos hc] at he; exact h e he
  · rw [if_neg hc] at he
    by_cases hd : (ir.2.timestamp - ua).natAbs > MATCH_WINDOW_MS
    · rw [if_pos hd] at he; exact h e he
    · rw [if_neg hd] at he
      cases hb : best with
      | none =>
        rw [hb] at he
        have he2 : (ir.1, ir.2, (ir.2.timestamp - ua).natAbs) = e :=
          Option.some.inj he
        subst he2
        exact ⟨Bool.eq_false_iff.mpr hc, Nat.le_of_not_lt hd⟩
      | some b =>
        rw [hb] at he
        have he3 : (if (ir.2.timestamp - ua).natAbs < b.2.2 then
            some (ir.1, ir.2, (ir.2.timestamp - ua).natAbs) else some b) = some e := he
        by_cases hlt : (ir.2.timestamp - ua).natAbs < b.2.2
        · rw [if_pos hlt] at he3
          have he2 : (ir.1, ir.2, (ir.2.timestamp - ua).natAbs) = e :=
            Option.some.inj he3
          subst he2
          exact ⟨Bool.eq_false_iff.mpr hc, Nat.le_of_not_lt hd⟩
        · rw [if_neg hlt] at he3
          exact h e (hb.trans he3)

lemma findBestFold_inv (used : List Nat) (ua : Int) (l : List (Nat × CsvRow)) :
    ∀ (best : Option (Nat × CsvRow × Nat)), bestInv used ua best →
      bestInv used ua (l.foldl (findBestStep used ua) best) := by
  induction l with
  | nil => intro best h; exact h
  | cons ir rest ih => intro best h; exact ih _ (findBestStep_inv _ _ _ _ h)

lemma findBestCsvIdx_spec {sorted : List CsvRow} {used : List Nat} {ua : Int}
    {i : Nat} {r : CsvRow} (h : findBestCsvIdx sorted used ua = some (i, r)) :
    used.contains i = false ∧ (r.timestamp - ua).natAbs ≤ MATCH_WINDOW_MS := by
  unfold findBestCsvIdx at h
  cases hf : (sorted.enum).foldl (findBestStep used ua) none with
  | none => rw [hf] at h; cases h
  | some b =>
    rw [hf] at h
    have hb := findBestFold_inv used ua sorted.enum none
      (by intro e he; cases he) b hf
    have he : (b.1, b.2.1) = (i, r) := by simpa using h
    injection he with hi hr
    subst hi
    subst hr
    exact hb

def matchInv (groupsAll : List (String × List UsageRow))
    (st : List Nat × List (String × Nat × CsvRow)) : Prop :=
  (st.2.map (fun e => e.2.1)).Nodup ∧
  (∀ e ∈ st.2, e.2.1 ∈ st.1) ∧
  (∀ e ∈ st.2,
    (e.2.2.timestamp - maxUpdatedAt ((assocFind groupsAll e.1).getD [])).natAbs ≤
      MATCH_WINDOW_MS)

lemma matchFold_inv (sorted : List CsvRow) (groupsAll : List (String × List UsageRow))
    (hnd : (assocKeys groupsAll).Nodup) :
    ∀ (gs : List (String × List UsageRow)) (st : List Nat × List (String × Nat × CsvRow)),
      (∀ g ∈ gs, g ∈ groupsAll) → matchInv groupsAll st →
      matchInv groupsAll (gs.foldl (matchStep sorted) st) := by
  intro gs
  induction gs with
  | nil => intro st _ h; exact h
  | cons g rest ih =>
    intro st hsub hinv
    rw [List.foldl_cons]
    apply ih _ (fun q hq => hsub q (List.mem_cons_of_mem g hq))
    unfold matchStep
    cases hf : findBestCsvIdx sorted st.1 (maxUpdatedAt g.2) with
    | none => exact hinv
    | some ir =>
      obtain ⟨i, r⟩ := ir
      obtain ⟨hc, hw⟩ := findBestCsvIdx_spec hf
      obtain ⟨hnd1, hmem1, hwin1⟩ := hinv
      have hinot : i ∉ st.1 := by simpa using hc
      refine ⟨?_, ?_, ?_⟩
      · rw [List.map_append]
        have hnotold : i ∉ st.2.map (fun e => e.2.1) := by
          intro hmem
          obtain ⟨e, hmem2, hei⟩ := List.mem_map.mp hmem
          exact hinot (hei ▸ hmem1 e hmem2)
        simp [List.nodup_append, hnd1, hnotold]
      · intro e he
        rcases List.mem_append.mp he with h1 | h2
        · exact List.mem_cons_of_mem _ (hmem1 e h1)
        · have he2 : e = (g.1, i, r) := by simpa using h2
          subst he2
          exact List.mem_cons_self _ _
      · intro e he
        rcases List.mem_append.mp he with h1 | h2
        · exact hwin1 e h1
        · have he2 : e = (g.1, i, r) := by simpa using h2
          subst he2
          have hgmem : (g.1, g.2) ∈ groupsAll :=
            hsub g (List.mem_cons_self g rest)
          have hg : assocFind groupsAll g.1 = some g.2 :=
            assocFind_of_mem_nodup hgmem hnd
          simpa [hg] using hw

lemma matchFold_sids_sublist (sorted : List CsvRow) :
    ∀ (gs : List (String × List UsageRow)) (st : List Nat × List (String × Nat × CsvRow)),
      ((gs.foldl (matchStep sorted) st).2.map (fun e => e.1)).Sublist
        ((st.2.map (fun e => e.1)) ++ gs.map (fun g => g.1)) := by
  intro gs
  induction gs with
  | nil =>
    intro st
    simp only [List.foldl_nil, List.map_nil, List.append_nil]
    exact List.Sublist.refl _
  | cons g rest ih =>
    intro st
    rw [List.foldl_cons]
    unfold matchStep
    cases hf : findBestCsvIdx sorted st.1 (maxUpdatedAt g.2) with
    | none =>
      refine (ih st).trans ?_
      rw [List.map_cons]
      exact List.Sublist.append_left (List.sublist_cons_self _ _) _
    | some ir =>
      have h2 := ih (ir.1 :: st.1, st.2 ++ [(g.1, ir.1, ir.2)])
      simp only [List.map_append] at h2
      rw [List.map_cons]
      simpa [List.append_assoc] using h2

lemma matchFind_mem {m : List (String × Nat × CsvRow)} {s : String} {i : Nat} {r : CsvRow}
    (h : matchFind m s = some (i, r)) : (s, i, r) ∈ m := by
  unfold matchFind at h
  cases hf : m.find? (fun e => e.1 == s) with
  | none => rw [hf] at h; cases h
  | some e =>
    rw [hf] at h
    have hm := List.mem_of_find?_eq_some hf
    have hs : e.1 = s := by simpa using List.find?_some hf
    have h2 : e.2 = (i, r) := by simpa using h
    obtain ⟨e1, e2⟩ := e
    simp at hs h2
    rw [hs, h2] at hm
    exact hm

/- ### Rounding and conservation lemmas -/

lemma isEmpty_false_of_ne_nil {α : Type} {l : List α} (h : l ≠ []) :
    l.isEmpty = false := by
  cases l with
  | nil => exact absurd rfl h
  | cons a t => rfl

lemma ne_nil_of_isEmpty_false {α : Type} {l : List α} (h : l.isEmpty = false) :
    l ≠ [] := by
  cases l with
  | nil => simp at h
  | cons a t => simp

lemma abs_jsRound_sub_le (x : ℚ) : |(jsRound x : ℚ) - x| ≤ 1 / 2 := by
  unfold jsRound
  rw [abs_le]
  constructor
  · have h := Int.sub_one_lt_floor (x + 1 / 2)
    linarith
  · have h := Int.floor_le (x + 1 / 2)
    linarith

lemma sum_jsRound_bound (T : ℚ) :
    ∀ (ws : List ℚ),
      |(((ws.map (fun w => jsRound (T * w))).sum : ℤ) : ℚ) - T * ws.sum| ≤
        (ws.length : ℚ) / 2 := by
  intro ws
  induction ws with
  | nil => simp
  | cons w rest ih =>
    simp only [List.map_cons, List.sum_cons, List.length_cons]
    have h1 := abs_jsRound_sub_le (T * w)
    have key : ((jsRound (T * w) + (rest.map (fun w => jsRound (T * w))).sum : ℤ) : ℚ)
        - T * (w + rest.sum)
        = ((jsRound (T * w) : ℚ) - T * w) +
          ((((rest.map (fun w => jsRound (T * w))).sum : ℤ) : ℚ) - T * rest.sum) := by
      push_cast
      ring
    rw [key]
    have h3 := abs_add ((jsRound (T * w) : ℚ) - T * w)
      ((((rest.map (fun w => jsRound (T * w))).sum : ℤ) : ℚ) - T * rest.sum)
    have h4 : ((rest.length + 1 : ℕ) : ℚ) / 2 = (rest.length : ℚ) / 2 + 1 / 2 := by
      push_cast
      ring
    rw [h4]
    calc _ ≤ _ := h3
      _ ≤ 1 / 2 + (rest.length : ℚ) / 2 := add_le_add h1 ih
      _ = (rest.length : ℚ) / 2 + 1 / 2 := by ring

lemma sum_jsRound_conserved (T : ℚ) (ws : List ℚ) (h : ws.sum = 1) :
    |(((ws.map (fun w => jsRound (T * w))).sum : ℤ) : ℚ) - T| ≤ (ws.length : ℚ) := by
  have hb := sum_jsRound_bound T ws
  rw [h, mul_one] at hb
  have hlen : (0 : ℚ) ≤ (ws.length : ℚ) := by positivity
  linarith

lemma sum_map_div {α : Type} (F : List α) (g : α → ℚ) (c : ℚ) :
    (F.map (fun x => g x / c)).sum = (F.map g).sum / c := by
  induction F with
  | nil => simp
  | cons x rest ih => simp [ih, add_div]

lemma sum_map_intCast {α : Type} (F : List α) (g : α → ℤ) :
    (F.map (fun x => ((g x : ℤ) : ℚ))).sum = (((F.map g).sum : ℤ) : ℚ) := by
  induction F with
  | nil => simp
  | cons x rest ih =>
    simp only [List.map_cons, List.sum_cons, ih]
    push_cast
    ring

lemma rowWeight_sum (F : List UsageRow) (hne : F ≠ []) :
    (F.map (rowWeight F)).sum = 1 := by
  by_cases h : ((F.map (fun r => r.tokens.output)).sum : Int) > 0
  · have heq : rowWeight F = fun x : UsageRow =>
        (x.tokens.output : ℚ) / (((F.map (fun r => r.tokens.output)).sum : Int) : ℚ) := by
      funext x
      unfold rowWeight
      rw [if_pos h]
    rw [heq, sum_map_div, sum_map_intCast]
    have hzero : (((F.map (fun r => r.tokens.output)).sum : ℤ) : ℚ) ≠ 0 := by
      have : (0 : ℚ) < (((F.map (fun r => r.tokens.output)).sum : ℤ) : ℚ) := by
        exact_mod_cast h
      linarith
    exact div_self hzero
  · have heq : rowWeight F = fun _ : UsageRow => 1 / (F.length : ℚ) := by
      funext x
      unfold rowWeight
      rw [if_neg h]
    rw [heq, List.map_const', List.sum_replicate, nsmul_eq_mul]
    have hlen : (F.length : ℚ) ≠ 0 := by
      have : F.length ≠ 0 := by
        cases F with
        | nil => exact absurd rfl hne
        | cons a t => simp
      exact_mod_cast this
    field_simp

/- ### Enrichment assembly lemmas -/

lemma enrichWithCsvData_eq_of_ne_nil (L : List UsageRow) (C : List CsvRow)
    (E : List (String × List UsageRow)) (hC : C ≠ []) :
    enrichWithCsvData L C E =
      (enrichResult (groupBySession L)
        (matchSessions (groupBySession L) (sortCsvByTs C))
        (L.map (distributeRow (groupBySession L)
          (matchSessions (groupBySession L) (sortCsvByTs C))))
        (enrichCacheUpdate
          (L.map (distributeRow (groupBySession L)
            (matchSessions (groupBySession L) (sortCsvByTs C))))
          (matchSessions (groupBySession L) (sortCsvByTs C)) E),
       enrichCacheUpdate
         (L.map (distributeRow (groupBySession L)
           (matchSessions (groupBySession L) (sortCsvByTs C))))
         (matchSessions (groupBySession L) (sortCsvByTs C)) E) := by
  cases C with
  | nil => exact absurd rfl hC
  | cons c cs => rfl

lemma enrichWithCsvData_nil_csv (L : List UsageRow)
    (E : List (String × List UsageRow)) (hE : E ≠ []) :
    enrichWithCsvData L [] E =
      (L.map (fun r => (applyCachedEnrichmentToRow E r).getD r), E) := by
  cases E with
  | nil => exact absurd rfl hE
  | cons e es => rfl

lemma distributeRow_sessionId (g : List (String × List UsageRow))
    (a : List (String × Nat × CsvRow)) (row : UsageRow) :
    (distributeRow g a row).sessionId = row.sessionId := by
  unfold distributeRow
  cases matchFind a row.sessionId with
  | none => rfl
  | some p =>
    obtain ⟨i, csv⟩ := p
    rfl

lemma applyCached_getD_sessionId (E : List (String × List UsageRow))
    (row : UsageRow) :
    ((applyCachedEnrichmentToRow E row).getD row).sessionId = row.sessionId := by
  unfold applyCachedEnrichmentToRow
  cases assocFind E row.sessionId with
  | none => rfl
  | some cr =>
    cases hf : cr.find? (fun c => c.timestamp == row.timestamp) with
    | none => simp [hf]
    | some m => simp [hf]

lemma filter_sid_map (f : UsageRow → UsageRow)
    (hf : ∀ r, (f r).sessionId = r.sessionId) (L : List UsageRow) (s : String) :
    (L.map f).filter (fun r => r.sessionId == s) =
      (L.filter (fun r => r.sessionId == s)).map f := by
  induction L with
  | nil => rfl
  | cons r L2 ih =>
    simp only [List.map_cons, List.filter_cons, hf r]
    by_cases h : r.sessionId == s
    · simp [h, ih]
    · simp [h, ih]

lemma sessionId_of_mem_filter {L : List UsageRow} {s : String} {x : UsageRow}
    (h : x ∈ L.filter (fun r => r.sessionId == s)) : x.sessionId = s := by
  have := List.of_mem_filter h
  simpa using this

lemma enrichResult_filter_matched (groups : List (String × List UsageRow))
    (assignments : List (String × Nat × CsvRow)) (R : List UsageRow)
    (c1 : List (String × List UsageRow)) (s : String)
    (hm : (matchFind assignments s).isSome = true) :
    (enrichResult groups assignments R c1).filter (fun r => r.sessionId == s) =
      R.filter (fun r => r.sessionId == s) := by
  unfold enrichResult
  by_cases hcond : assignments.length < groups.length && !c1.isEmpty
  · rw [if_pos hcond]
    have hpres : ∀ r : UsageRow,
        ((if (matchFind assignments r.sessionId).isSome then r
          else (applyCachedEnrichmentToRow c1 r).getD r) : UsageRow).sessionId =
          r.sessionId := by
      intro r
      by_cases h : (matchFind assignments r.sessionId).isSome
      · rw [if_pos h]
      · rw [if_neg h]
        exact applyCached_getD_sessionId c1 r
    rw [filter_sid_map _ hpres]
    have hid : ∀ x ∈ R.filter (fun r => r.sessionId == s),
        (if (matchFind assignments x.sessionId).isSome then x
         else (applyCachedEnrichmentToRow c1 x).getD x) = x := by
      intro x hx
      rw [sessionId_of_mem_filter hx, if_pos hm]
    rw [List.map_congr_left hid, List.map_id']
  · rw [if_neg hcond]

lemma cacheUpdate_find_not_mem (R : List UsageRow) :
    ∀ (ms : List (String × Nat × CsvRow)) (c : List (String × List UsageRow))
      (s : String), s ∉ ms.map (fun e => e.1) →
      assocFind (ms.foldl (cacheWriteStep R) c) s = assocFind c s := by
  intro ms
  induction ms with
  | nil => intro c s _; rfl
  | cons m rest ih =>
    intro c s hs
    have hne : s ≠ m.1 := fun e => hs (by simp [e])
    rw [List.foldl_cons,
      ih (cacheWriteStep R c m) s (fun hmem => hs (List.mem_cons_of_mem _ hmem))]
    unfold cacheWriteStep
    by_cases he : (R.filter (fun r => r.sessionId == m.1)).isEmpty
    · rw [if_pos he]
    · rw [if_neg he]
      exact assocFind_set_ne _ _ _ _ hne

lemma cacheUpdate_find_matched (R : List UsageRow) :
    ∀ (ms : List (String × Nat × CsvRow)) (c : List (String × List UsageRow))
      (s : String) (i : Nat) (r : CsvRow),
      (ms.map (fun e => e.1)).Nodup → (s, i, r) ∈ ms →
      R.filter (fun x => x.sessionId == s) ≠ [] →
      assocFind (ms.foldl (cacheWriteStep R) c) s =
        some (R.filter (fun x => x.sessionId == s)) := by
  intro ms
  induction ms with
  | nil => intro c s i r _ hmem _; cases hmem
  | cons m rest ih =>
    intro c s i r hnd hmem hne
    rw [List.foldl_cons]
    rw [List.map_cons] at hnd
    have hnd2 := List.nodup_cons.mp hnd
    rcases List.mem_cons.mp hmem with hm | hrest
    · have hm1 : m.1 = s := by rw [← hm]
      have hsnot : s ∉ rest.map (fun e => e.1) := hm1 ▸ hnd2.1
      rw [cacheUpdate_find_not_mem R rest _ s hsnot]
      unfold cacheWriteStep
      rw [hm1, if_neg (by rw [isEmpty_false_of_ne_nil hne]; simp)]
      exact assocFind_set_self _ _ _
    · have hs2 : s ∈ rest.map (fun e => e.1) := by
        have := List.mem_map_of_mem (fun e : String × Nat × CsvRow => e.1) hrest
        simpa using this
      exact ih (cacheWriteStep R c m) s i r hnd2.2 hrest hne

lemma groupBySession_keys_nodup (L : List UsageRow) :
    (assocKeys (groupBySession L)).Nodup := by
  unfold groupBySession
  exact groupFold_keys_nodup L [] (by simp [assocKeys])

lemma matchSessions_sids_nodup (L : List UsageRow) (sorted : List CsvRow) :
    ((matchSessions (groupBySession L) sorted).map (fun e => e.1)).Nodup := by
  have hsub := matchFold_sids_sublist sorted (groupBySession L) ([], [])
  have hkeys := groupBySession_keys_nodup L
  refine List.Nodup.sublist ?_ (by simpa [assocKeys] using hkeys)
  simpa [matchSessions] using hsub

lemma matched_group (L : List UsageRow) (sorted : List CsvRow) {s : String}
    {i : Nat} {r : CsvRow}
    (hm : matchFind (matchSessions (groupBySession L) sorted) s = some (i, r)) :
    assocFind (groupBySession L) s =
      some (L.filter (fun x => x.sessionId == s)) ∧
    L.filter (fun x => x.sessionId == s) ≠ [] := by
  have hmem := matchFind_mem hm
  have hsub := matchFold_sids_sublist sorted (groupBySession L) ([], [])
  have hs : s ∈ assocKeys (groupBySession L) := by
    have h1 : s ∈ (matchSessions (groupBySession L) sorted).map (fun e => e.1) := by
      have := List.mem_map_of_mem (fun e : String × Nat × CsvRow => e.1) hmem
      simpa using this
    have h2 := hsub.subset (by simpa [matchSessions] using h1)
    simpa [assocKeys] using h2
  have hfind := groupFold_find L [] s
  rw [assocFind_nil] at hfind
  by_cases hemp : (L.filter (fun x => x.sessionId == s)).isEmpty
  · rw [if_pos hemp] at hfind
    exact absurd ((assocFind_eq_none_iff _ _).mp hfind) (by simpa using hs)
  · rw [if_neg hemp] at hfind
    exact ⟨hfind, ne_nil_of_isEmpty_false (by simpa using hemp)⟩

lemma distributeRow_output_matched (groups : List (String × List UsageRow))
    (assignments : List (String × Nat × CsvRow)) {s : String} {i : Nat}
    {r : CsvRow} {F : List UsageRow} (x : UsageRow) (hx : x.sessionId = s)
    (hm : matchFind assignments s = some (i, r))
    (hg : assocFind groups s = some F) :
    (distributeRow groups assignments x).tokens.output =
      jsRound ((r.outputTokens : ℚ) * rowWeight F x) := by
  unfold distributeRow
  rw [hx, hm]
  simp [hg]

/- ### C2: enrichment conservation -/

/-- First assistant turn of the C2 scenario: output text of length 400 and no
authoritative counts parse to an estimated output of 100. -/
def c2RowA : UsageRow :=
  { sessionId := "s1", providerId := "anthropic", modelId := "claude-4"
    tokens := { input := 0, output := 100 }, timestamp := 1000
    isEstimated := true, sessionUpdatedAt := some 50000 }

/-- Second assistant turn of the C2 scenario: estimated output 200. -/
def c2RowB : UsageRow :=
  { sessionId := "s1", providerId := "anthropic", modelId := "claude-4"
    tokens := { input := 0, output := 200 }, timestamp := 2000
    isEstimated := true, sessionUpdatedAt := some 50000 }

/-- Remote record of the C2 scenario: output total 330 at a matching
timestamp. -/
def c2Csv : CsvRow :=
  { timestamp := 50000, kind := "Included", model := "auto", maxMode := false
    inputTokensWithCacheWrite := 0, inputTokensWithoutCacheWrite := 0
    cacheReadTokens := 0, outputTokens := 330, totalTokens := 330, cost := 0 }

/-- C2: for every conversation matched to a remote record, the sum of the
distributed output tokens across its rows — each `Math.round(total * weight)`
with the weights summing to one — differs from the remote record's output
total by at most one per row; and in the concrete scenario, estimated outputs
100 and 200 matched to a record with output 330 distribute as 110 and 220
with both rows flagged non-estimated. -/
theorem enrich_output_conservation :
    (∀ (L : List UsageRow) (C : List CsvRow) (E : List (String × List UsageRow))
       (s : String) (i : Nat) (r : CsvRow),
      C ≠ [] →
      matchFind (matchSessions (groupBySession L) (sortCsvByTs C)) s = some (i, r) →
      |((((enrichWithCsvData L C E).1.filter
            (fun x => x.sessionId == s)).map (fun x => x.tokens.output)).sum
          - r.outputTokens)| ≤ ((L.filter (fun x => x.sessionId == s)).length : ℤ)) ∧
    (enrichWithCsvData [c2RowA, c2RowB] [c2Csv] []).1 =
      [{ c2RowA with tokens := { input := 0, output := 110 }, isEstimated := false },
       { c2RowB with tokens := { input := 0, output := 220 }, isEstimated := false }] := by
  constructor
  · intro L C E s i r hC hm
    obtain ⟨hgfind, hFne⟩ := matched_group L (sortCsvByTs C) hm
    rw [enrichWithCsvData_eq_of_ne_nil L C E hC]
    dsimp only
    rw [enrichResult_filter_matched _ _ _ _ s (by rw [hm]; rfl)]
    rw [filter_sid_map _ (distributeRow_sessionId _ _) L s]
    rw [List.map_map]
    have hout : ∀ x ∈ L.filter (fun x => x.sessionId == s),
        ((fun x : UsageRow => x.tokens.output) ∘
          (distributeRow (groupBySession L)
            (matchSessions (groupBySession L) (sortCsvByTs C)))) x
          = jsRound ((r.outputTokens : ℚ) *
              rowWeight (L.filter (fun x => x.sessionId == s)) x) := by
      intro x hx
      exact distributeRow_output_matched _ _ x (sessionId_of_mem_filter hx) hm hgfind
    rw [List.map_congr_left hout]
    have hmm2 : (L.filter (fun x => x.sessionId == s)).map
        (fun x => jsRound ((r.outputTokens : ℚ) *
          rowWeight (L.filter (fun x => x.sessionId == s)) x))
        = ((L.filter (fun x => x.sessionId == s)).map
            (rowWeight (L.filter (fun x => x.sessionId == s)))).map
            (fun q => jsRound ((r.outputTokens : ℚ) * q)) := by
      rw [List.map_map]
      rfl
    rw [hmm2]
    have hws := rowWeight_sum (L.filter (fun x => x.sessionId == s)) hFne
    have hbound := sum_jsRound_conserved (r.outputTokens : ℚ) _ hws
    rw [List.length_map] at hbound
    exact_mod_cast hbound
  · norm_num [enrichWithCsvData, enrichResult, enrichCacheUpdate, cacheWriteStep,
      matchSessions, matchStep, findBestCsvIdx, findBestStep, groupBySession,
      groupStep, assocFind, assocSet, matchFind, distributeRow, rowWeight, jsRound,
      maxUpdatedAt, sortCsvByTs, insertCsvByTs, c2RowA, c2RowB, c2Csv,
      MATCH_WINDOW_MS, List.find?, List.filter]

/-- Witness for C2: the conservation bound applied to the concrete scenario
conversation. -/
theorem enrich_output_conservation_witness :
    |((((enrichWithCsvData [c2RowA, c2RowB] [c2Csv] []).1.filter
          (fun x => x.sessionId == "s1")).map (fun x => x.tokens.output)).sum
        - 330)| ≤ 2 := by
  have h := enrich_output_conservation.1 [c2RowA, c2RowB] [c2Csv] [] "s1" 0 c2Csv
    (by simp) (by rfl)
  exact h

/- ### C4: enrichment-cache replay -/

lemma applyCached_eq {E : List (String × List UsageRow)} {row m : UsageRow}
    {cr : List UsageRow}
    (hc : assocFind E row.sessionId = some cr)
    (hf : cr.find? (fun c => c.timestamp == row.timestamp) = some m) :
    applyCachedEnrichmentToRow E row =
      some { row with
        tokens := m.tokens
        cost := match m.cost with | some c => some c | none => row.cost
        isEstimated := false } := by
  simp only [applyCachedEnrichmentToRow, hc, hf]

/-- C4: once a conversation's rows have been enriched from a matched remote
record (which writes them into the per-session enrichment cache), a subsequent
`enrichWithCsvData` call in which the remote feed returns no rows leaves the
cache untouched and returns a local row with the same conversation identifier
and timestamp carrying the cached authoritative token values, the cached cost,
and `isEstimated = false`, rather than its local estimate. -/
theorem enrichment_cache_replay :
    ∀ (L1 : List UsageRow) (C1 : List CsvRow) (E0 : List (String × List UsageRow))
      (s : String) (i : Nat) (r : CsvRow) (L2 : List UsageRow) (row m : UsageRow),
      C1 ≠ [] →
      matchFind (matchSessions (groupBySession L1) (sortCsvByTs C1)) s = some (i, r) →
      ((enrichWithCsvData L1 C1 E0).1.filter (fun x => x.sessionId == s)).find?
        (fun c => c.timestamp == row.timestamp) = some m →
      row.sessionId = s →
      row ∈ L2 →
      (enrichWithCsvData L2 [] (enrichWithCsvData L1 C1 E0).2).2 =
        (enrichWithCsvData L1 C1 E0).2 ∧
      { row with
        tokens := m.tokens
        cost := match m.cost with | some c => some c | none => row.cost
        isEstimated := false } ∈
        (enrichWithCsvData L2 [] (enrichWithCsvData L1 C1 E0).2).1 := by
  intro L1 C1 E0 s i r L2 row m hC hm hfind hsid hmem
  have hfilter : (enrichWithCsvData L1 C1 E0).1.filter (fun x => x.sessionId == s)
      = (L1.map (distributeRow (groupBySession L1)
          (matchSessions (groupBySession L1) (sortCsvByTs C1)))).filter
          (fun x => x.sessionId == s) := by
    rw [enrichWithCsvData_eq_of_ne_nil L1 C1 E0 hC]
    dsimp only
    exact enrichResult_filter_matched _ _ _ _ s (by rw [hm]; rfl)
  have hnd := matchSessions_sids_nodup L1 (sortCsvByTs C1)
  have hmemA := matchFind_mem hm
  have hFne2 : (L1.map (distributeRow (groupBySession L1)
      (matchSessions (groupBySession L1) (sortCsvByTs C1)))).filter
      (fun x => x.sessionId == s) ≠ [] := by
    rw [← hfilter]
    intro hnil
    rw [hnil] at hfind
    simp at hfind
  have hcache : assocFind (enrichWithCsvData L1 C1 E0).2 s
      = some ((enrichWithCsvData L1 C1 E0).1.filter (fun x => x.sessionId == s)) := by
    rw [hfilter, enrichWithCsvData_eq_of_ne_nil L1 C1 E0 hC]
    dsimp only
    exact cacheUpdate_find_matched _ _ E0 s i r hnd hmemA hFne2
  have hE1ne : (enrichWithCsvData L1 C1 E0).2 ≠ [] := by
    intro h0
    rw [h0, assocFind_nil] at hcache
    cases hcache
  rw [enrichWithCsvData_nil_csv L2 _ hE1ne]
  refine ⟨rfl, ?_⟩
  have hc2 : assocFind (enrichWithCsvData L1 C1 E0).2 row.sessionId
      = some ((enrichWithCsvData L1 C1 E0).1.filter (fun x => x.sessionId == s)) := by
    rw [hsid]
    exact hcache
  have hreplay := applyCached_eq hc2 hfind
  dsimp only
  have htarget : ({ row with
      tokens := m.tokens
      cost := match m.cost with | some c => some c | none => row.cost
      isEstimated := false } : UsageRow)
      = (applyCachedEnrichmentToRow (enrichWithCsvData L1 C1 E0).2 row).getD row := by
    rw [hreplay]
    rfl
  rw [htarget]
  exact List.mem_map_of_mem _ hmem

/-- Local row of the C4 witness conversation. -/
def c4Local : UsageRow :=
  { sessionId := "s2", providerId := "cursor", modelId := "auto"
    tokens := { input := 0, output := 40 }, timestamp := 7000
    isEstimated := true, sessionUpdatedAt := some 90000 }

/-- Remote record of the C4 witness, within the match window. -/
def c4Csv : CsvRow :=
  { timestamp := 90000, kind := "Included", model := "auto", maxMode := false
    inputTokensWithCacheWrite := 12, inputTokensWithoutCacheWrite := 10
    cacheReadTokens := 5, outputTokens := 50, totalTokens := 77, cost := 1 / 4 }

/-- The enriched form of `c4Local` produced by the first call. -/
def c4Enriched : UsageRow :=
  distributeRow (groupBySession [c4Local])
    (matchSessions (groupBySession [c4Local]) (sortCsvByTs [c4Csv])) c4Local

/-- Witness for C4: a one-row conversation is enriched from a matched record;
the follow-up call with an empty remote feed keeps the cache and replays the
cached authoritative values onto the local row. -/
theorem enrichment_cache_replay_witness :
    (enrichWithCsvData [c4Local] [] (enrichWithCsvData [c4Local] [c4Csv] []).2).2 =
      (enrichWithCsvData [c4Local] [c4Csv] []).2 ∧
    { c4Local with
      tokens := c4Enriched.tokens
      cost := match c4Enriched.cost with | some c => some c | none => c4Local.cost
      isEstimated := false } ∈
      (enrichWithCsvData [c4Local] [] (enrichWithCsvData [c4Local] [c4Csv] []).2).1 :=
  enrichment_cache_replay [c4Local] [c4Csv] [] "s2" 0 c4Csv [c4Local] c4Local
    c4Enriched (by simp) rfl rfl rfl (by simp)

/- ### C5: greedy matching properties -/

/-- Local estimated row of the C5 conversation. -/
def c5Local : UsageRow :=
  { sessionId := "s3", providerId := "cursor", modelId := "auto"
    tokens := { input := 0, output := 25 }, timestamp := 1000
    isEstimated := true, sessionUpdatedAt := some 10000 }

/-- Previously-enriched row for the same conversation and timestamp, sitting
in the per-session enrichment cache. -/
def c5CachedRow : UsageRow :=
  { c5Local with tokens := { input := 7, output := 42 }, isEstimated := false }

/-- A remote record far outside the ±60 s window of the conversation. -/
def c5FarCsv : CsvRow :=
  { timestamp := 200000, kind := "Included", model := "auto", maxMode := false
    inputTokensWithCacheWrite := 0, inputTokensWithoutCacheWrite := 0
    cacheReadTokens := 0, outputTokens := 99, totalTokens := 99, cost := 0 }

/-- Enrichment cache holding the previously-enriched row. -/
def c5Cache : List (String × List UsageRow) := [("s3", [c5CachedRow])]

/-- C5 counterexample: the claim says a conversation with no unassigned remote
record inside the ±60 s window keeps its local (possibly estimated) rows
unchanged.  At this input the conversation is unmatched (the only record is
190 s away), yet its row comes back altered: the per-session enrichment cache
holds previously-enriched values with the same timestamp, and the fallback
step applies them, returning the cached tokens with `isEstimated = false`
instead of the unchanged local estimate. -/
theorem unmatched_conversation_row_changed :
    (enrichWithCsvData [c5Local] [c5FarCsv] c5Cache).1 ≠ [c5Local] ∧
    (enrichWithCsvData [c5Local] [c5FarCsv] c5Cache).1 =
      [{ c5Local with tokens := c5CachedRow.tokens, isEstimated := false }] := by
  refine ⟨?_, rfl⟩
  decide

lemma enrichResult_unmatched_mem (groups : List (String × List UsageRow))
    (A : List (String × Nat × CsvRow)) (R : List UsageRow)
    (c1 : List (String × List UsageRow)) (row : UsageRow)
    (hrowR : row ∈ R)
    (hmnone : matchFind A row.sessionId = none)
    (hacnone : applyCachedEnrichmentToRow c1 row = none) :
    row ∈ enrichResult groups A R c1 := by
  unfold enrichResult
  by_cases hcond : A.length < groups.length && !c1.isEmpty
  · rw [if_pos hcond]
    have hf : (if (matchFind A row.sessionId).isSome then row
        else (applyCachedEnrichmentToRow c1 row).getD row) = row := by
      rw [hmnone, hacnone]
      rfl
    exact List.mem_map.mpr ⟨row, hrowR, hf⟩
  · rw [if_neg hcond]
    exact hrowR

/-- C5 (amended): in the matching step every remote record is consumed at most
once, every conversation is assigned at most one record, and every assigned
pair lies within the ±60 s window of the conversation's most recent
last-modified stamp; a conversation with no record inside the window keeps its
local rows unchanged unless the per-session enrichment cache can replay
previously-enriched values for it (same conversation and timestamp), in which
case those cached values are applied instead. -/
theorem enrichment_matching_properties :
    ∀ (L : List UsageRow) (C : List CsvRow) (E : List (String × List UsageRow)),
      (((matchSessions (groupBySession L) (sortCsvByTs C)).map
          (fun e => e.2.1)).Nodup) ∧
      (((matchSessions (groupBySession L) (sortCsvByTs C)).map
          (fun e => e.1)).Nodup) ∧
      (∀ e ∈ matchSessions (groupBySession L) (sortCsvByTs C),
        (e.2.2.timestamp -
          maxUpdatedAt ((assocFind (groupBySession L) e.1).getD [])).natAbs ≤
          MATCH_WINDOW_MS) ∧
      (∀ row ∈ L, C ≠ [] →
        matchFind (matchSessions (groupBySession L) (sortCsvByTs C))
          row.sessionId = none →
        applyCachedEnrichmentToRow (enrichWithCsvData L C E).2 row = none →
        row ∈ (enrichWithCsvData L C E).1) := by
  intro L C E
  have hkeys := groupBySession_keys_nodup L
  have hinv := matchFold_inv (sortCsvByTs C) (groupBySession L) hkeys
    (groupBySession L) ([], []) (fun g hg => hg)
    ⟨by simp, by simp, by simp⟩
  obtain ⟨h1, _, h3⟩ := hinv
  refine ⟨by simpa [matchSessions] using h1,
    matchSessions_sids_nodup L _, ?_, ?_⟩
  · intro e he
    exact h3 e (by simpa [matchSessions] using he)
  · intro row hrow hC hmnone hacnone
    rw [enrichWithCsvData_eq_of_ne_nil L C E hC] at hacnone ⊢
    dsimp only at hacnone ⊢
    have hd : distributeRow (groupBySession L)
        (matchSessions (groupBySession L) (sortCsvByTs C)) row = row := by
      unfold distributeRow
      rw [hmnone]
    have hmem2 := List.mem_map_of_mem (distributeRow (groupBySession L)
      (matchSessions (groupBySession L) (sortCsvByTs C))) hrow
    rw [hd] at hmem2
    exact enrichResult_unmatched_mem _ _ _ _ row hmem2 hmnone hacnone

/-- Witness for C5: the matching-step properties applied at the concrete
unmatched conversation with an empty enrichment cache — the row passes through
unchanged. -/
theorem enrichment_matching_properties_witness :
    c5Local ∈ (enrichWithCsvData [c5Local] [c5FarCsv] []).1 :=
  (enrichment_matching_properties [c5Local] [c5FarCsv] []).2.2.2 c5Local
    (by simp) (by simp) rfl rfl

/- ### Batch pipeline (parser.ts parseSessionsFromWorkspaces) -/

/-- Result-cache TTL.  Modelled from the spec: the `cache.ts` module is not
among the sources; §4.4 fixes the result-cache TTL default at 2 seconds. -/
def CACHE_TTL_MS : Int := 2000

/-- `SessionParseOptions`, restricted to the fields the pipeline reads. -/
structure ParseOptions where
  sessionId : Option String
  limit : Option Int
  since : Option Int
deriving DecidableEq, Repr

/-- `options.limit ?? 100` (parser.ts line 187). -/
def effLimit (o : ParseOptions) : Int := o.limit.getD 100

/-- `sessionCache`: the single-slot result cache of the last pipeline run. -/
structure SessionCacheSt where
  lastCheck : Int
  lastLimit : Int
  lastSince : Option Int
  lastResult : List UsageRow
deriving DecidableEq, Repr

/-- The result-cache gate (parser.ts lines 200-206): no single-conversation
request, identical limit, age below the TTL, non-empty cached result, and
identical since filter. -/
def resultCacheHit (o : ParseOptions) (now : Int) (st : SessionCacheSt) : Bool :=
  o.sessionId.isNone && (effLimit o == st.lastLimit) &&
  decide (now - st.lastCheck < CACHE_TTL_MS) &&
  decide (st.lastResult.length > 0) &&
  (o.since == st.lastSince)

/-- `lastUpdatedAt || createdAt || 0` (parser.ts line 246): JavaScript
falsy-fallback on the numbers. -/
def effLastUpdatedAt (cd : ComposerData) : Int :=
  if cd.lastUpdatedAt == 0 then cd.createdAt else cd.lastUpdatedAt

/-- The since filter as the source applies it (`!since || lastUpdatedAt >=
since` at line 252, `since && lastUpdatedAt < since` at line 267): a zero
since value is falsy in JavaScript and disables the filter. -/
def sinceOk (since : Option Int) (lu : Int) : Bool :=
  match since with
  | none => true
  | some s => s == 0 || lu ≥ s

/-- One iteration of the conversation enumeration (parser.ts lines 240-276),
acting on (seen ids, collected metas, metadata index): the id is marked seen
first; a missing/undecodable record contributes nothing; an unchanged stamp
on a clean run skips the index write; otherwise the index is updated, and the
meta is collected subject to the since filter. -/
def msStep (db : Db) (wsProject : String → Option String)
    (isDirty needsFull : Bool) (since : Option Int)
    (st : List String × List ComposerWithMeta × List (String × Int))
    (cid : String) :
    List String × List ComposerWithMeta × List (String × Int) :=
  let seen := cid :: st.1
  match readComposerData db cid with
  | none => (seen, st.2.1, st.2.2)
  | some cd =>
    let lu := effLastUpdatedAt cd
    let meta : ComposerWithMeta :=
      { composerId := cid, lastUpdatedAt := lu, projectPath := wsProject cid,
        sessionName := cd.name }
    if !isDirty && !needsFull && (assocFind st.2.2 cid == some lu) then
      if sinceOk since lu then (seen, st.2.1 ++ [meta], st.2.2)
      else (seen, st.2.1, st.2.2)
    else
      if !(sinceOk since lu) then (seen, st.2.1, assocSet st.2.2 cid lu)
      else (seen, st.2.1 ++ [meta], assocSet st.2.2 cid lu)

/-- The conversation enumeration plus the end-of-run purge (parser.ts lines
240-282): metadata-index entries whose id was not seen in this scan are
deleted.  Returns (collected metas, purged index). -/
def runMetadataScan (db : Db) (wsProject : String → Option String)
    (isDirty needsFull : Bool) (since : Option Int)
    (index : List (String × Int)) (composerIds : List String) :
    List ComposerWithMeta × List (String × Int) :=
  let st := composerIds.foldl (msStep db wsProject isDirty needsFull since)
    ([], [], index)
  (st.2.1, st.2.2.filter (fun p => st.1.contains p.1))

lemma msStep_seen (db : Db) (wsProject : String → Option String)
    (isDirty needsFull : Bool) (since : Option Int)
    (st : List String × List ComposerWithMeta × List (String × Int))
    (cid : String) :
    (msStep db wsProject isDirty needsFull since st cid).1 = cid :: st.1 := by
  unfold msStep
  cases readComposerData db cid with
  | none => rfl
  | some cd =>
    dsimp only
    split
    · split <;> rfl
    · split <;> rfl

/-- C10: when the pipeline is invoked with a specific sessionId, the
enumeration consists of that single conversation, and the end-of-run purge
treats it as the full scan: afterwards the composer metadata index holds no
entry for any other conversation — all other previously known entries are
deleted. -/
theorem singleSession_purges_metadata_index :
    ∀ (db : Db) (wsProject : String → Option String) (isDirty needsFull : Bool)
      (since : Option Int) (index : List (String × Int)) (sid : String),
      ((runMetadataScan db wsProject isDirty needsFull since index [sid]).2).all
        (fun p => p.1 == sid) = true := by
  intro db w d f since index sid
  unfold runMetadataScan
  rw [List.foldl_cons, List.foldl_nil]
  apply List.all_eq_true.mpr
  intro p hp
  have hc := List.of_mem_filter hp
  rw [msStep_seen] at hc
  have : p.1 ∈ [sid] := by simpa using hc
  simpa using this

/- ### C6: aggregate-cache gate -/

/-- `SessionAggregateCacheEntry` (types.ts). -/
structure AggEntry where
  updatedAt : Int
  usageRows : List UsageRow
  lastAccessed : Int
deriving DecidableEq, Repr

/-- The cache-miss path of the per-conversation loop (parser.ts lines
306-320): re-read the conversation record (skip on absence), re-parse its
bubbles, and store a fresh aggregate-cache entry. -/
def processComposerMiss (db : Db) (est : Bool) (now : Int)
    (aggCache : List (String × AggEntry)) (meta : ComposerWithMeta) :
    Except Unit (List UsageRow × List (String × AggEntry) × Bool) :=
  match readComposerData db meta.composerId with
  | none => .ok ([], aggCache, false)
  | some cd =>
    match parseComposerBubbles db meta cd est with
    | .error e => .error e
    | .ok rows =>
      .ok (rows,
        assocSet aggCache meta.composerId
          { updatedAt := meta.lastUpdatedAt, usageRows := rows,
            lastAccessed := now },
        false)

/-- The per-conversation body of the pipeline loop (parser.ts lines 290-321):
serve from the aggregate cache only when the run is neither dirty nor a
forced reconciliation, the entry is non-empty, and its stamp matches; the hit
refreshes `lastAccessed`.  The returned boolean reports a cache hit. -/
def processComposer (db : Db) (est isDirty needsFull : Bool) (now : Int)
    (aggCache : List (String × AggEntry)) (meta : ComposerWithMeta) :
    Except Unit (List UsageRow × List (String × AggEntry) × Bool) :=
  match assocFind aggCache meta.composerId with
  | some c =>
    if !(isDirty || needsFull || (c.usageRows.length == 0)) &&
        (c.updatedAt == meta.lastUpdatedAt) then
      .ok (c.usageRows,
        assocSet aggCache meta.composerId { c with lastAccessed := now }, true)
    else processComposerMiss db est now aggCache meta
  | none => processComposerMiss db est now aggCache meta


lemma processComposer_of_find_some {db : Db} {est isDirty needsFull : Bool}
    {now : Int} {aggCache : List (String × AggEntry)} {meta : ComposerWithMeta}
    {c : AggEntry} (hfind : assocFind aggCache meta.composerId = some c) :
    processComposer db est isDirty needsFull now aggCache meta =
      if !(isDirty || needsFull || (c.usageRows.length == 0)) &&
          (c.updatedAt == meta.lastUpdatedAt) then
        .ok (c.usageRows,
          assocSet aggCache meta.composerId { c with lastAccessed := now }, true)
      else processComposerMiss db est now aggCache meta := by
  simp only [processComposer, hfind]

lemma processComposerMiss_eq {db : Db} {est : Bool} {now : Int}
    {aggCache : List (String × AggEntry)} {meta : ComposerWithMeta}
    {cd : ComposerData} {rows : List UsageRow}
    (hread : readComposerData db meta.composerId = some cd)
    (hparse : parseComposerBubbles db meta cd est = .ok rows) :
    processComposerMiss db est now aggCache meta =
      .ok (rows,
        assocSet aggCache meta.composerId
          { updatedAt := meta.lastUpdatedAt, usageRows := rows,
            lastAccessed := now },
        false) := by
  simp only [processComposerMiss, hread, hparse]

lemma processComposerMiss_not_hit (db : Db) (est : Bool) (now : Int)
    (aggCache : List (String × AggEntry)) (meta : ComposerWithMeta)
    (rows : List UsageRow) (cache2 : List (String × AggEntry)) (b : Bool)
    (h : processComposerMiss db est now aggCache meta = .ok (rows, cache2, b)) :
    b = false := by
  unfold processComposerMiss at h
  split at h
  · have h3 := congrArg
      (fun t : List UsageRow × List (String × AggEntry) × Bool => t.2.2)
      (Except.ok.inj h)
    exact h3.symm
  · split at h
    · cases h
    · have h3 := congrArg
        (fun t : List UsageRow × List (String × AggEntry) × Bool => t.2.2)
        (Except.ok.inj h)
      exact h3.symm

/-- C6: a conversation's aggregate-cache entry is served — its rows reused,
the entry's `lastAccessed` refreshed — exactly when the stored stamp equals
the conversation's current last-modified stamp, the entry's row list is
non-empty, and the run is neither dirty nor a forced reconciliation; in
particular a cached entry with zero rows is always treated as stale and the
conversation is re-parsed, its entry rebuilt from the fresh parse. -/
theorem aggregateCache_gate :
    ∀ (db : Db) (est isDirty needsFull : Bool) (now : Int)
      (aggCache : List (String × AggEntry)) (meta : ComposerWithMeta),
      ((∃ rows cache2, processComposer db est isDirty needsFull now aggCache meta
          = .ok (rows, cache2, true)) ↔
        (isDirty = false ∧ needsFull = false ∧
          ∃ c, assocFind aggCache meta.composerId = some c ∧
            c.updatedAt = meta.lastUpdatedAt ∧ c.usageRows ≠ [])) ∧
      (∀ c, assocFind aggCache meta.composerId = some c →
        isDirty = false → needsFull = false → c.updatedAt = meta.lastUpdatedAt →
        c.usageRows ≠ [] →
        processComposer db est isDirty needsFull now aggCache meta
          = .ok (c.usageRows,
              assocSet aggCache meta.composerId { c with lastAccessed := now },
              true)) ∧
      (∀ c cd rows, assocFind aggCache meta.composerId = some c →
        c.usageRows = [] →
        readComposerData db meta.composerId = some cd →
        parseComposerBubbles db meta cd est = .ok rows →
        processComposer db est isDirty needsFull now aggCache meta
          = .ok (rows,
              assocSet aggCache meta.composerId
                { updatedAt := meta.lastUpdatedAt, usageRows := rows,
                  lastAccessed := now },
              false)) := by
  intro db est isDirty needsFull now aggCache meta
  refine ⟨⟨?_, ?_⟩, ?_, ?_⟩
  · rintro ⟨rows, cache2, h⟩
    cases hf : assocFind aggCache meta.composerId with
    | none =>
      unfold processComposer at h
      rw [hf] at h
      exact absurd (processComposerMiss_not_hit _ _ _ _ _ _ _ _ h) (by simp)
    | some c =>
      rw [processComposer_of_find_some hf] at h
      by_cases hcond : (!(isDirty || needsFull || (c.usageRows.length == 0)) &&
          (c.updatedAt == meta.lastUpdatedAt)) = true
      · rw [if_pos hcond] at h
        simp only [Bool.and_eq_true, Bool.not_eq_true', Bool.or_eq_false_iff,
          beq_iff_eq] at hcond
        obtain ⟨⟨⟨hd, hf2⟩, hlen⟩, hupd⟩ := hcond
        refine ⟨hd, hf2, c, rfl, hupd, ?_⟩
        intro hnil
        rw [hnil] at hlen
        simp at hlen
      · rw [if_neg hcond] at h
        exact absurd (processComposerMiss_not_hit _ _ _ _ _ _ _ _ h) (by simp)
  · rintro ⟨hd, hf2, c, hfind, hupd, hne⟩
    subst hd
    subst hf2
    refine ⟨c.usageRows,
      assocSet aggCache meta.composerId { c with lastAccessed := now }, ?_⟩
    rw [processComposer_of_find_some hfind, if_pos]
    simp [hupd, List.length_eq_zero, hne]
  · intro c hfind hd hf2 hupd hne
    subst hd
    subst hf2
    rw [processComposer_of_find_some hfind, if_pos]
    simp [hupd, List.length_eq_zero, hne]
  · intro c cd rows hfind hnil hread hparse
    rw [processComposer_of_find_some hfind, if_neg]
    · exact processComposerMiss_eq hread hparse
    · rw [hnil]
      simp

/-- Aggregate-cache entry row used by the C6 witness. -/
def c6Row : UsageRow :=
  { sessionId := "c1", providerId := "cursor", modelId := "m"
    tokens := { input := 1, output := 2 }, timestamp := 3
    isEstimated := true, sessionUpdatedAt := some 5 }

/-- A one-entry aggregate cache whose stamp matches the conversation. -/
def c6Cache : List (String × AggEntry) :=
  [("c1", { updatedAt := 5, usageRows := [c6Row], lastAccessed := 0 })]

/-- Metadata of the C6 witness conversation (current stamp 5). -/
def c6Meta : ComposerWithMeta :=
  { composerId := "c1", lastUpdatedAt := 5, projectPath := none,
    sessionName := none }

/-- An empty store: the cache hit must not read it. -/
def c6Db : Db := { composers := [], bubbles := [] }

/-- Witness for C6: on a clean run with a matching stamp and a non-empty
entry, the rows are served from the aggregate cache and only `lastAccessed`
is refreshed. -/
theorem aggregateCache_gate_witness :
    processComposer c6Db true false false 99 c6Cache c6Meta
      = .ok ([c6Row],
          assocSet c6Cache "c1"
            { updatedAt := 5, usageRows := [c6Row], lastAccessed := 99 },
          true) :=
  (aggregateCache_gate c6Db true false false 99 c6Cache c6Meta).2.1
    { updatedAt := 5, usageRows := [c6Row], lastAccessed := 0 }
    rfl rfl rfl rfl (by simp)

/- ### C7: result-cache idempotence -/

/-- `parseSessionsFromWorkspaces` around its result cache (parser.ts lines
190-209 and 331-336): an unavailable store yields an empty result; a cache
hit returns the stored result unchanged without running the pipeline; a miss
runs the pipeline (`runFn`) and, unless a single conversation was requested,
stores the fresh result.  `nowStart` is the clock at the gate check,
`nowEnd` the clock when the result is stored; the returned boolean reports
whether the pipeline ran. -/
def parseSessionsModel (storeOk : Bool)
    (runFn : ParseOptions → Except Unit (List UsageRow))
    (o : ParseOptions) (nowStart nowEnd : Int) (st : SessionCacheSt) :
    Except Unit (List UsageRow × SessionCacheSt × Bool) :=
  if !storeOk then .ok ([], st, false)
  else if resultCacheHit o nowStart st then .ok (st.lastResult, st, false)
  else
    match runFn o with
    | .error e => .error e
    | .ok rows =>
      .ok (rows,
        if o.sessionId.isNone then
          { lastCheck := nowEnd, lastLimit := effLimit o, lastSince := o.since,
            lastResult := rows }
        else st,
        true)

lemma parseSessionsModel_hit {storeOk : Bool}
    {runFn : ParseOptions → Except Unit (List UsageRow)} {o : ParseOptions}
    {nowStart nowEnd : Int} {st : SessionCacheSt}
    (hok : storeOk = true) (hhit : resultCacheHit o nowStart st = true) :
    parseSessionsModel storeOk runFn o nowStart nowEnd st =
      .ok (st.lastResult, st, false) := by
  subst hok
  unfold parseSessionsModel
  rw [if_neg (by simp), if_pos hhit]

/-- C7: calling the pipeline twice with identical limit and since arguments,
no sessionId, within the 2-second TTL of a non-empty first result, returns
the identical result set the second time without re-running the pipeline;
and the cached result is served (store available, no pipeline run) exactly
when all gate conditions hold. -/
theorem resultCache_idempotence :
    (∀ (runFn : ParseOptions → Except Unit (List UsageRow)) (o : ParseOptions)
       (n1s n1e : Int) (st0 : SessionCacheSt) (res : List UsageRow)
       (st1 : SessionCacheSt) (ran : Bool) (n2s n2e : Int),
      o.sessionId = none →
      parseSessionsModel true runFn o n1s n1e st0 = .ok (res, st1, ran) →
      res ≠ [] →
      n2s - st1.lastCheck < CACHE_TTL_MS →
      parseSessionsModel true runFn o n2s n2e st1 = .ok (res, st1, false)) ∧
    (∀ (runFn : ParseOptions → Except Unit (List UsageRow)) (o : ParseOptions)
       (ns ne : Int) (st : SessionCacheSt),
      (∃ res st2, parseSessionsModel true runFn o ns ne st = .ok (res, st2, false))
        ↔ resultCacheHit o ns st = true) := by
  constructor
  · intro runFn o n1s n1e st0 res st1 ran n2s n2e hsid h1 hne httl
    unfold parseSessionsModel at h1
    rw [if_neg (by simp)] at h1
    by_cases hhit : resultCacheHit o n1s st0 = true
    · rw [if_pos hhit] at h1
      have h2 := Except.ok.inj h1
      have hres : st0.lastResult = res := congrArg (fun t => t.1) h2
      have hst : st0 = st1 := congrArg (fun t => t.2.1) h2
      subst hst
      simp only [resultCacheHit, Bool.and_eq_true, decide_eq_true_eq] at hhit
      obtain ⟨⟨⟨⟨hnone, hlim⟩, _⟩, _⟩, hsince⟩ := hhit
      have hhit2 : resultCacheHit o n2s st0 = true := by
        simp only [resultCacheHit, Bool.and_eq_true, decide_eq_true_eq]
        refine ⟨⟨⟨⟨hnone, hlim⟩, httl⟩, ?_⟩, hsince⟩
        rw [hres]
        cases res with
        | nil => exact absurd rfl hne
        | cons a t => simp
      rw [parseSessionsModel_hit rfl hhit2, hres]
    · rw [if_neg hhit] at h1
      cases hrun : runFn o with
      | error e =>
        rw [hrun] at h1
        cases h1
      | ok rows =>
        rw [hrun] at h1
        rw [hsid] at h1
        have h2 := Except.ok.inj h1
        have hres : rows = res := congrArg (fun t => t.1) h2
        have hst : ({ lastCheck := n1e, lastLimit := effLimit o,
                      lastSince := o.since,
                      lastResult := rows } : SessionCacheSt) = st1 :=
          congrArg (fun t => t.2.1) h2
        have hhit2 : resultCacheHit o n2s st1 = true := by
          rw [← hst]
          simp only [resultCacheHit, Bool.and_eq_true, decide_eq_true_eq]
          refine ⟨⟨⟨⟨by rw [hsid]; rfl, by simp⟩, ?_⟩, ?_⟩, by simp⟩
          · rw [← hst] at httl
            exact httl
          · rw [hres]
            cases res with
            | nil => exact absurd rfl hne
            | cons a t => simp
        rw [parseSessionsModel_hit rfl hhit2, ← hst]
        rw [hres]
  · intro runFn o ns ne st
    constructor
    · rintro ⟨res, st2, h⟩
      by_cases hhit : resultCacheHit o ns st = true
      · exact hhit
      · unfold parseSessionsModel at h
        rw [if_neg (by simp), if_neg hhit] at h
        cases hrun : runFn o with
        | error e =>
          rw [hrun] at h
          cases h
        | ok rows =>
          rw [hrun] at h
          have h2 := Except.ok.inj h
          have : (true : Bool) = false := congrArg (fun t => t.2.2) h2
          cases this
    · intro hhit
      exact ⟨st.lastResult, st, parseSessionsModel_hit rfl hhit⟩

/-- Row returned by the C7 witness pipeline. -/
def c7Row : UsageRow :=
  { sessionId := "s7", providerId := "cursor", modelId := "m"
    tokens := { input := 3, output := 4 }, timestamp := 10
    isEstimated := true, sessionUpdatedAt := some 20 }

/-- A deterministic pipeline for the C7 witness. -/
def c7Run : ParseOptions → Except Unit (List UsageRow) := fun _ => .ok [c7Row]

/-- Witness for C7: a first call populates the result cache; a second call
two milliseconds later with identical arguments returns the identical result
without running the pipeline. -/
theorem resultCache_idempotence_witness :
    parseSessionsModel true c7Run
      { sessionId := none, limit := none, since := none } 2 3
      { lastCheck := 1, lastLimit := 100, lastSince := none,
        lastResult := [c7Row] } =
      .ok ([c7Row],
        { lastCheck := 1, lastLimit := 100, lastSince := none,
          lastResult := [c7Row] }, false) :=
  resultCache_idempotence.1 c7Run
    { sessionId := none, limit := none, since := none } 0 1
    { lastCheck := -100000, lastLimit := 0, lastSince := none, lastResult := [] }
    [c7Row]
    { lastCheck := 1, lastLimit := 100, lastSince := none, lastResult := [c7Row] }
    true 2 3 rfl rfl (by simp) (by decide)

/- ### C8: error propagation to the host -/

/-- Stable insertion for the most-recently-modified-first ordering of
conversations (parser.ts line 284). -/
def insertComposerDesc (m : ComposerWithMeta) :
    List ComposerWithMeta → List ComposerWithMeta
  | [] => [m]
  | x :: rest =>
    if m.lastUpdatedAt > x.lastUpdatedAt then m :: x :: rest
    else x :: insertComposerDesc m rest

/-- Sort conversations by last-modified stamp, descending, stable. -/
def sortComposersDesc (l : List ComposerWithMeta) : List ComposerWithMeta :=
  l.foldl (fun acc m => insertComposerDesc m acc) []

/-- The pipeline body of `parseSessionsFromWorkspaces` (parser.ts lines
230-350): enumerate conversations (a single one when a sessionId was
requested), run the metadata scan and purge, process each conversation in
most-recent-first order through the aggregate cache, and enrich the collected
rows with the remote feed.  The `try`/`finally` around this body has no
`catch`: an exception inside the loop propagates, which the `Except` bind
models.  Returns the enriched rows and the updated metadata index, aggregate
cache and enrichment cache. -/
def runPipelineModel (db : Db) (wsProject : String → Option String)
    (est isDirty needsFull : Bool) (since : Option Int) (now : Int)
    (metaIndex : List (String × Int)) (aggCache : List (String × AggEntry))
    (enrichCache : List (String × List UsageRow)) (csvRows : List CsvRow)
    (sessionIdOpt : Option String) :
    Except Unit (List UsageRow × List (String × Int) ×
      List (String × AggEntry) × List (String × List UsageRow)) :=
  let composerIds := match sessionIdOpt with
    | some s => [s]
    | none => readAllComposerIds db
  let scan := runMetadataScan db wsProject isDirty needsFull since metaIndex
    composerIds
  let sorted := sortComposersDesc scan.1
  match sorted.foldl
      (fun (acc : Except Unit (List UsageRow × List (String × AggEntry))) meta =>
        match acc with
        | .error e => .error e
        | .ok st =>
          match processComposer db est isDirty needsFull now st.2 meta with
          | .error e => .error e
          | .ok (rows, cache2, _) => .ok (st.1 ++ rows, cache2))
      (.ok ([], aggCache)) with
  | .error e => .error e
  | .ok st =>
    let enriched := enrichWithCsvData st.1 csvRows enrichCache
    .ok (enriched.1, scan.2, st.2, enriched.2)

/-- Options of the C8 failing call: a plain batch parse. -/
def c8Options : ParseOptions := { sessionId := none, limit := none, since := none }

/-- Result-cache state of the C8 failing call: empty, far in the past. -/
def c8InitialCache : SessionCacheSt :=
  { lastCheck := -100000, lastLimit := 0, lastSince := none, lastResult := [] }

/-- C8: the claim says the batch parse call never raises an exception to the
host.  With the store available and holding one conversation whose single
assistant record decodes to an object with non-empty text but no `tokenCount`
— a shape `isAssistantBubble` accepts — the `TypeError` thrown at parser.ts
line 121 propagates through `parseComposerBubbles`, through the per-composer
loop (whose `try` has a `finally` but no `catch`), and out of
`parseSessionsFromWorkspaces` to the host instead of yielding a result set. -/
theorem parse_raises_to_host_on_malformed_bubble :
    parseSessionsModel true
      (fun o => (runPipelineModel missingTokenCountDb (fun _ => none) true false
        false none 0 [] [] [] [] o.sessionId).map (fun t => t.1))
      c8Options 0 0 c8InitialCache = .error () := by
  rfl

/-- Witness for C10: a single-conversation call purges two previously known
metadata-index entries, leaving entries only for the requested id. -/
theorem singleSession_purges_metadata_index_witness :
    ((runMetadataScan c6Db (fun _ => none) false false none
        [("old1", 3), ("old2", 4)] ["c9"]).2).all (fun p => p.1 == "c9") = true :=
  singleSession_purges_metadata_index c6Db (fun _ => none) false false none
    [("old1", 3), ("old2", 4)] "c9"
